import Mathlib

set_option maxHeartbeats 1000000
set_option maxRecDepth 100000

/-!
Verification development for the syncvibe signaling-server repository.

The repository contains several JavaScript variants of a WebRTC signaling
server.  Each variant keeps its room registry in an in-memory JavaScript
Map or plain object and processes one inbound event at a time on a
single-threaded event loop, so every handler runs atomically with respect
to the shared state.  We embed each relevant handler as a pure Lean
function from a server state and an inbound event to a new state together
with the list of messages sent out (as pairs of recipient connection and
message).  Timestamps (createdAt, joinedAt, lastActivity, message times)
and console logging are omitted: no claim under consideration observes
them.  Random id generation is modelled by a monotone counter, capturing
the intended freshness of generated ids.
-/

/-
Association-list primitives mirroring the JavaScript Map / plain-object
operations used throughout the repository.  Insertion order is preserved,
matching the iteration-order guarantee of JavaScript Maps (and of objects
with string keys), which the code relies on for host succession.
-/

def lookupA {κ α : Type} [DecidableEq κ] (k : κ) : List (κ × α) → Option α
  | [] => none
  | q :: t => if q.1 = k then some q.2 else lookupA k t

def setA {κ α : Type} [DecidableEq κ] (k : κ) (v : α) : List (κ × α) → List (κ × α)
  | [] => [(k, v)]
  | q :: t => if q.1 = k then (k, v) :: t else q :: setA k v t

def eraseA {κ α : Type} [DecidableEq κ] (k : κ) : List (κ × α) → List (κ × α)
  | [] => []
  | q :: t => if q.1 = k then t else q :: eraseA k t

theorem lookupA_setA_self {κ α : Type} [DecidableEq κ] (k : κ) (v : α) (l : List (κ × α)) :
    lookupA k (setA k v l) = some v := by
  induction l with
  | nil => simp [setA, lookupA]
  | cons q t ih =>
    obtain ⟨a, b⟩ := q
    by_cases h : a = k
    · simp [setA, h, lookupA]
    · simp [setA, h, lookupA, ih]

theorem lookupA_setA_ne {κ α : Type} [DecidableEq κ] {k k' : κ} (v : α) (l : List (κ × α))
    (h : k' ≠ k) : lookupA k' (setA k v l) = lookupA k' l := by
  have hk : ¬(k = k') := fun hh => h hh.symm
  induction l with
  | nil => simp [setA, lookupA, hk]
  | cons q t ih =>
    obtain ⟨a, b⟩ := q
    by_cases hq : a = k
    · subst hq
      simp [setA, lookupA, hk]
    · simp [setA, hq, lookupA, ih]

theorem lookupA_eraseA_ne {κ α : Type} [DecidableEq κ] {k k' : κ} (l : List (κ × α))
    (h : k' ≠ k) : lookupA k' (eraseA k l) = lookupA k' l := by
  induction l with
  | nil => simp [eraseA]
  | cons q t ih =>
    obtain ⟨a, b⟩ := q
    by_cases hq : a = k
    · subst hq
      have hk : ¬(a = k') := fun hh => h hh.symm
      simp [eraseA, lookupA, hk]
    · simp [eraseA, hq, lookupA, ih]

theorem eraseA_of_lookup_none {κ α : Type} [DecidableEq κ] {k : κ} {l : List (κ × α)}
    (h : lookupA k l = none) : eraseA k l = l := by
  induction l with
  | nil => simp [eraseA]
  | cons q t ih =>
    obtain ⟨a, b⟩ := q
    by_cases hq : a = k
    · simp [lookupA, hq] at h
    · simp [lookupA, hq] at h
      simp [eraseA, hq, ih h]

theorem setA_of_forall_ne {κ α : Type} [DecidableEq κ] {k : κ} (v : α) {l : List (κ × α)}
    (h : ∀ q ∈ l, q.1 ≠ k) : setA k v l = l ++ [(k, v)] := by
  induction l with
  | nil => simp [setA]
  | cons q t ih =>
    have hq : q.1 ≠ k := h q (by simp)
    simp [setA, hq]
    exact ih (fun q' hq' => h q' (by simp [hq']))

theorem mem_setA {κ α : Type} [DecidableEq κ] {k : κ} {v : α} {l : List (κ × α)} {q : κ × α}
    (h : q ∈ setA k v l) : q ∈ l ∨ q = (k, v) := by
  induction l with
  | nil =>
    simp [setA] at h
    simp [h]
  | cons p t ih =>
    obtain ⟨a, b⟩ := p
    by_cases hp : a = k
    · simp [setA, hp] at h
      rcases h with h | h
      · right; simp [h]
      · left; simp [h]
    · simp [setA, hp] at h
      rcases h with h | h
      · left; simp [h]
      · rcases ih h with h' | h'
        · left; simp [h']
        · right; exact h'

theorem mem_eraseA {κ α : Type} [DecidableEq κ] {k : κ} {l : List (κ × α)} {q : κ × α}
    (h : q ∈ eraseA k l) : q ∈ l := by
  induction l with
  | nil => simp [eraseA] at h
  | cons p t ih =>
    obtain ⟨a, b⟩ := p
    by_cases hp : a = k
    · simp [eraseA, hp] at h
      simp [h]
    · simp [eraseA, hp] at h
      rcases h with h | h
      · simp [h]
      · simp [ih h]

theorem setA_setA {κ α : Type} [DecidableEq κ] (k : κ) (v v' : α) (l : List (κ × α)) :
    setA k v' (setA k v l) = setA k v' l := by
  induction l with
  | nil => simp [setA]
  | cons q t ih =>
    obtain ⟨a, b⟩ := q
    by_cases hq : a = k
    · simp [setA, hq]
    · simp [setA, hq, ih]

theorem setA_self_of_lookup {κ α : Type} [DecidableEq κ] {k : κ} {v : α} {l : List (κ × α)}
    (h : lookupA k l = some v) : setA k v l = l := by
  induction l with
  | nil => simp [lookupA] at h
  | cons q t ih =>
    obtain ⟨a, b⟩ := q
    by_cases hq : a = k
    · simp [lookupA, hq] at h
      subst hq
      simp [setA, h]
    · simp [lookupA, hq] at h
      simp [setA, hq, ih h]

theorem setA_ne_nil {κ α : Type} [DecidableEq κ] (k : κ) (v : α) (l : List (κ × α)) :
    setA k v l ≠ [] := by
  cases l with
  | nil => simp [setA]
  | cons q t =>
    by_cases hq : q.1 = k <;> simp [setA, hq]


/-- JavaScript String.prototype.trim: strip leading and trailing
whitespace (char-list implementation, kernel-friendly). -/
def jsTrim (s : String) : String :=
  String.mk (((s.toList.dropWhile Char.isWhitespace).reverse.dropWhile Char.isWhitespace).reverse)

/-- JavaScript String.prototype.toUpperCase (char-list implementation,
kernel-friendly). -/
def jsToUpper (s : String) : String :=
  String.mk (s.toList.map Char.toUpper)

/-- JavaScript String.prototype.substring(0, n) / slice(0, n): the first n
characters. -/
def jsTake (s : String) (n : Nat) : String :=
  String.mk (s.toList.take n)

/-!
## Model of src/server.js (VibeZone ws-based signaling server)

State: the global rooms Map (roomCode to room), the set of WebSocket
connections together with their per-connection closure variables
(clientId, currentRoom, clientName), and a counter standing in for the
random id generator (generateClientId is modelled as returning the
current counter value, which is fresh by construction).
-/

namespace ServerJs

/-- MAX_ROOM_SIZE from src/server.js. -/
def MAX_ROOM_SIZE : Nat := 12

/-- One entry of room.clients: the Map value stored at a clientId key.
`ws` is the connection the entry points to (src/server.js stores the
WebSocket object itself; we store its connection id). -/
structure SClient where
  ws : Nat
  name : String
  isHost : Bool
deriving DecidableEq

/-- One room of the rooms Map: clients (insertion-ordered, as a JS Map),
locked flag and hostId.  createdAt is omitted (a timestamp no claim
observes). -/
structure SRoom where
  clients : List (Nat × SClient)
  locked : Bool
  hostId : Option Nat
deriving DecidableEq

/-- A WebSocket connection with the closure variables of the connection
handler in src/server.js: clientId, currentRoom, clientName, plus the
socket's open/closed status (readyState === OPEN). -/
structure SConn where
  isOpen : Bool
  clientId : Option Nat
  currentRoom : Option String
  clientName : String
deriving DecidableEq

/-- Global server state of src/server.js. -/
structure SState where
  rooms : List (String × SRoom)
  conns : List (Nat × SConn)
  fresh : Nat
deriving DecidableEq

/-- Outbound messages of src/server.js (the JSON objects passed to
ws.send), one constructor per message type. -/
inductive SMsg where
  | errorMsg (message : String)
  | lockedMsg
  | fullMsg (max : Nat)
  | joinedMsg (id : Nat) (hostId : Option Nat) (isHost : Bool) (locked : Bool)
      (peers : List (Nat × String × Bool))
  | peerJoinedMsg (id : Nat) (name : String) (isHost : Bool)
  | signalMsg (sender : Option Nat) (data : String)
  | chatMsg (senderId : Option Nat) (sender : String) (text : String)
  | statusMsg (id : Option Nat) (action : String) (value : String)
  | reactionMsg (id : Option Nat) (emoji : String)
  | roomLockMsg (locked : Bool)
  | controlMsg (action : String)
  | peerLeftMsg (id : Nat) (name : String)
  | hostChangedMsg (hostId : Option Nat)
deriving DecidableEq

/-- Whether a connection id refers to an open socket (readyState === OPEN). -/
def connOpen (s : SState) (cid : Nat) : Bool :=
  match lookupA cid s.conns with
  | some c => c.isOpen
  | none => false

/-- broadcastToRoom from src/server.js: send a message to every client of
the room whose id differs from excludeClientId and whose socket is open. -/
def broadcastToRoom (s : SState) (roomCode : String) (msg : SMsg) (exclude : Option Nat) :
    List (Nat × SMsg) :=
  match lookupA roomCode s.rooms with
  | none => []
  | some room =>
      room.clients.filterMap fun q =>
        if some q.1 ≠ exclude ∧ connOpen s q.2.ws = true then some (q.2.ws, msg) else none

/-- sendToClient from src/server.js: unicast to one clientId of one room,
silently doing nothing when the room or client is missing or closed. -/
def sendToClient (s : SState) (roomCode : String) (clientId : Nat) (msg : SMsg) :
    List (Nat × SMsg) :=
  match lookupA roomCode s.rooms with
  | none => []
  | some room =>
      match lookupA clientId room.clients with
      | some cl => if connOpen s cl.ws = true then [(cl.ws, msg)] else []
      | none => []

/-- The tail of handleJoin from src/server.js, from the lock check on,
once the room object has been resolved (created when absent): reject on
locked or full, otherwise elect the first joiner host, insert the client,
send the private joined acknowledgement with the roster excluding the
joiner, and broadcast peer-joined to the others. -/
def joinResolved (s2 : SState) (cid clientId : Nat) (roomCode name' : String)
    (room0 : SRoom) : SState × List (Nat × SMsg) :=
  if room0.locked = true ∧ room0.clients.length > 0 then
    (s2, [(cid, SMsg.lockedMsg)])
  else if room0.clients.length ≥ MAX_ROOM_SIZE then
    (s2, [(cid, SMsg.fullMsg MAX_ROOM_SIZE)])
  else
    let isHost : Bool := room0.clients.length == 0
    let hostId' : Option Nat := if isHost = true then some clientId else room0.hostId
    let clients' := setA clientId ⟨cid, name', isHost⟩ room0.clients
    let room' : SRoom := ⟨clients', room0.locked, hostId'⟩
    let s3 : SState := ⟨setA roomCode room' s2.rooms, s2.conns, s2.fresh⟩
    let peersList : List (Nat × String × Bool) :=
      clients'.filterMap fun q =>
        if q.1 ≠ clientId then some (q.1, q.2.name, some q.1 = hostId') else none
    ((s3),
      (cid, SMsg.joinedMsg clientId hostId' isHost room0.locked peersList) ::
        broadcastToRoom s3 roomCode
          (SMsg.peerJoinedMsg clientId name' (some clientId = hostId')) (some clientId))

/-- handleJoin from src/server.js.  The empty room code models the falsy
check `!roomCode`; the empty name models a missing `name` field
(`name || 'Misafir'`).  generateClientId is the fresh counter.  Note the
JS code assigns clientId / currentRoom / clientName before the lock and
capacity checks, and creates a missing room before those checks as well;
a room it creates has locked = false and zero clients, so creation is
never followed by a rejection.  The JS code re-reads the room from the
Map right after conditionally inserting it; we pass the value that
re-read returns to joinResolved. -/
def handleJoin (s : SState) (cid : Nat) (c : SConn) (roomCode name : String) :
    SState × List (Nat × SMsg) :=
  if roomCode = "" then (s, [(cid, SMsg.errorMsg "Geçersiz oda kodu")])
  else
    let clientId := s.fresh
    let name' := if name = "" then "Misafir" else name
    let c1 : SConn := ⟨c.isOpen, some clientId, some roomCode, name'⟩
    let s1 : SState := ⟨s.rooms, setA cid c1 s.conns, s.fresh + 1⟩
    match lookupA roomCode s1.rooms with
    | some r => joinResolved s1 cid clientId roomCode name' r
    | none =>
        joinResolved ⟨setA roomCode ⟨[], false, none⟩ s1.rooms, s1.conns, s1.fresh⟩
          cid clientId roomCode name' ⟨[], false, none⟩

/-- handleSignal from src/server.js: relay to the client `to` of the room
named in the message (not necessarily the sender's room), tagged with the
sender's clientId.  Falsy room / to / data fields drop the event. -/
def handleSignal (s : SState) (c : SConn) (roomCode : String) (target : Option Nat)
    (data : String) : List (Nat × SMsg) :=
  if roomCode = "" ∨ data = "" then []
  else
    match target with
    | none => []
    | some t => sendToClient s roomCode t (SMsg.signalMsg c.clientId data)

/-- handleChat from src/server.js: requires the sender's clientId to be a
member of the named room, trims and truncates the text to 1000
characters, silently drops the message when the cleaned text is empty,
and otherwise broadcasts to the whole room (no exclusion). -/
def handleChat (s : SState) (c : SConn) (roomCode text : String) : List (Nat × SMsg) :=
  if roomCode = "" ∨ text = "" then []
  else
    match lookupA roomCode s.rooms with
    | none => []
    | some room =>
        match c.clientId with
        | none => []
        | some i =>
            match lookupA i room.clients with
            | none => []
            | some cl =>
                let cleanText := jsTake (jsTrim text) 1000
                if cleanText = "" then []
                else broadcastToRoom s roomCode (SMsg.chatMsg (some i) cl.name cleanText) none

/-- handleStatus from src/server.js: broadcast to the named room with no
membership check and no exclusion. -/
def handleStatus (s : SState) (c : SConn) (roomCode action value : String) :
    List (Nat × SMsg) :=
  if roomCode = "" ∨ action = "" then []
  else broadcastToRoom s roomCode (SMsg.statusMsg c.clientId action value) none

/-- The fixed emoji allow-list of handleReaction in src/server.js. -/
def allowedEmojis : List String := ["👍", "❤️", "👏", "😂", "😮", "🎉", "🔥", "👀"]

/-- handleReaction from src/server.js: drop anything outside the
allow-list, otherwise broadcast to the named room with no exclusion
(the excludeClientId argument is not passed, so the sender is included). -/
def handleReaction (s : SState) (c : SConn) (roomCode emoji : String) : List (Nat × SMsg) :=
  if roomCode = "" ∨ emoji = "" then []
  else if allowedEmojis.contains emoji then
    broadcastToRoom s roomCode (SMsg.reactionMsg c.clientId emoji) none
  else []

/-- handleControl from src/server.js: host-only lock-room and mute-mic. -/
def handleControl (s : SState) (c : SConn) (roomCode action : String) (value : Bool)
    (targetId : Option Nat) : SState × List (Nat × SMsg) :=
  if roomCode = "" ∨ action = "" then (s, [])
  else
    match lookupA roomCode s.rooms with
    | none => (s, [])
    | some room =>
        if c.clientId ≠ room.hostId then (s, [])
        else if action = "lock-room" then
          let room1 : SRoom := ⟨room.clients, value, room.hostId⟩
          let s1 : SState := ⟨setA roomCode room1 s.rooms, s.conns, s.fresh⟩
          (s1, broadcastToRoom s1 roomCode (SMsg.roomLockMsg value) none)
        else if action = "mute-mic" then
          match targetId with
          | none => (s, [])
          | some t =>
              if some t ≠ c.clientId then
                (s, sendToClient s roomCode t (SMsg.controlMsg "mute-mic"))
              else (s, [])
        else (s, [])

/-- The ws.on('close') handler of src/server.js.  The closing socket is
marked closed; if its closure variables name a room still in the
registry, the client entry is deleted, peer-left is broadcast, the room
is deleted if now empty, and otherwise the host is reassigned to the
first remaining Map key when the closer was the host. -/
def handleClose (s : SState) (cid : Nat) (c : SConn) : SState × List (Nat × SMsg) :=
  let s0 : SState := ⟨s.rooms, setA cid ⟨false, c.clientId, c.currentRoom, c.clientName⟩ s.conns, s.fresh⟩
  match c.currentRoom, c.clientId with
  | some rc, some i =>
      (match lookupA rc s0.rooms with
      | none => (s0, [])
      | some room =>
          let wasHost : Bool := room.hostId == some i
          let room1 : SRoom := ⟨eraseA i room.clients, room.locked, room.hostId⟩
          let s1 : SState := ⟨setA rc room1 s0.rooms, s0.conns, s0.fresh⟩
          let out1 := broadcastToRoom s1 rc (SMsg.peerLeftMsg i c.clientName) none
          if room1.clients.length == 0 then
            (⟨eraseA rc s1.rooms, s1.conns, s1.fresh⟩, out1)
          else if wasHost then
            match room1.clients with
            | [] => (s1, out1)
            | (h, hc) :: _t =>
                let room2 : SRoom := ⟨setA h ⟨hc.ws, hc.name, true⟩ room1.clients, room1.locked, some h⟩
                let s2 : SState := ⟨setA rc room2 s1.rooms, s1.conns, s1.fresh⟩
                (s2, out1 ++ broadcastToRoom s2 rc (SMsg.hostChangedMsg (some h)) none)
          else (s1, out1))
  | _, _ => (s0, [])

/-- Inbound events of src/server.js: a new WebSocket connection, the six
message types, and a connection close. -/
inductive SEvent where
  | connect
  | join (cid : Nat) (room name : String)
  | signal (cid : Nat) (room : String) (target : Option Nat) (data : String)
  | chat (cid : Nat) (room text : String)
  | status (cid : Nat) (room action value : String)
  | reaction (cid : Nat) (room emoji : String)
  | control (cid : Nat) (room action : String) (value : Bool) (targetId : Option Nat)
  | close (cid : Nat)
deriving DecidableEq

/-- Run a handler only when the connection exists and is open (ws message
handlers only fire on live sockets). -/
def onOpenConn (s : SState) (cid : Nat) (f : SConn → SState × List (Nat × SMsg)) :
    SState × List (Nat × SMsg) :=
  match lookupA cid s.conns with
  | some c => if c.isOpen = true then f c else (s, [])
  | none => (s, [])

/-- One atomic event-loop step of src/server.js. -/
def step (s : SState) : SEvent → SState × List (Nat × SMsg)
  | .connect =>
      (⟨s.rooms, setA s.fresh ⟨true, none, none, "Misafir"⟩ s.conns, s.fresh + 1⟩, [])
  | .join cid room name => onOpenConn s cid fun c => handleJoin s cid c room name
  | .signal cid room target data => onOpenConn s cid fun c => (s, handleSignal s c room target data)
  | .chat cid room text => onOpenConn s cid fun c => (s, handleChat s c room text)
  | .status cid room action value =>
      onOpenConn s cid fun c => (s, handleStatus s c room action value)
  | .reaction cid room emoji => onOpenConn s cid fun c => (s, handleReaction s c room emoji)
  | .control cid room action value targetId =>
      onOpenConn s cid fun c => handleControl s c room action value targetId
  | .close cid => onOpenConn s cid fun c => handleClose s cid c

/-- The empty initial state of the process. -/
def initState : SState := ⟨[], [], 0⟩

/-- Fold a list of events through step. -/
def run (s : SState) : List SEvent → SState
  | [] => s
  | e :: t => run (step s e).1 t

/-- States the server can actually be in. -/
def Reachable (s : SState) : Prop := ∃ evs, run initState evs = s

/-- hostId of a room points at a current member. -/
def hostOk (r : SRoom) : Bool :=
  match r.hostId with
  | some h => (lookupA h r.clients).isSome
  | none => false

/-- Registry invariant of src/server.js: every room has at least one
client, its hostId is a member, and every stored clientId was produced by
the generator (is below the freshness counter). -/
def sinv (s : SState) : Bool :=
  s.rooms.all fun p =>
    (!p.2.clients.isEmpty) && hostOk p.2 &&
      p.2.clients.all fun q => decide (q.1 < s.fresh)

end ServerJs

/-!
## Model of src/unnamed/part_002 (Express + ws variant)

rooms is a plain object mapping a six-digit room code to
(peers array of WebSocket objects, hostId, locked).  WebSocket objects
carry id, room, name; we key them by their id (assigned from the fresh
counter at connection time) and keep their fields in a connection table.
-/

namespace PartTwo

/-- MAX_PER_ROOM from part_002. -/
def MAX_PER_ROOM : Nat := 8

/-- A ws connection of part_002: its open status and the room / name
fields the handlers assign on it (ws.id is the table key). -/
structure P2Conn where
  isOpen : Bool
  room : Option String
  name : String
deriving DecidableEq

/-- A room of part_002: peers is the array of WebSocket objects (stored
as their ids, in push order), hostId the id of the creator or its
successor, locked the lock flag. -/
structure P2Room where
  peers : List Nat
  hostId : Nat
  locked : Bool
deriving DecidableEq

/-- Global state of part_002. -/
structure P2State where
  rooms : List (String × P2Room)
  conns : List (Nat × P2Conn)
  fresh : Nat
deriving DecidableEq

/-- Outbound messages of part_002. -/
inductive P2Msg where
  | errorMsg (message : String)
  | lockedMsg
  | fullMsg (max : Nat)
  | joinedMsg (id : Nat) (isHost : Bool) (hostId : Nat) (locked : Bool)
      (peers : List (Nat × String × Bool))
  | peerJoinedMsg (id : Nat) (name : String) (isHost : Bool)
  | signalMsg (sender : Nat) (data : String)
  | chatMsg (sender : String) (text : String) (senderId : Nat)
  | roomLockMsg (locked : Bool)
  | controlMsg (action : String)
  | statusMsg (action : String) (id : Nat) (value : String)
  | reactionMsg (id : Nat) (emoji : String)
  | peerLeftMsg (id : Nat) (name : String)
  | hostChangedMsg (hostId : Nat)
deriving DecidableEq

/-- readyState === OPEN for a part_002 connection. -/
def connOpen (s : P2State) (cid : Nat) : Bool :=
  match lookupA cid s.conns with
  | some c => c.isOpen
  | none => false

/-- broadcast from part_002: send to every peer of the room whose socket
is open (the sender included when it is a member). -/
def broadcast (s : P2State) (room : P2Room) (msg : P2Msg) : List (Nat × P2Msg) :=
  room.peers.filterMap fun pid => if connOpen s pid = true then some (pid, msg) else none

/-- The test /^\d[6]$/ (six digits) on the room code of part_002, with
the preceding falsy check (an empty string fails the regex anyway). -/
def validRoomCode (room : String) : Bool :=
  room.length == 6 && room.toList.all fun ch => ch.isDigit

/-- The join branch of part_002's message handler. -/
def handleJoin (s : P2State) (wid : Nat) (w : P2Conn) (room name0 : String) :
    P2State × List (Nat × P2Msg) :=
  let name := jsTake (if name0 = "" then "Misafir" else name0) 32
  if validRoomCode room = false then
    (s, [(wid, P2Msg.errorMsg "Geçersiz oda kodu")])
  else
    -- first user creates the room and becomes host
    let (roomObj, rooms1) :=
      match lookupA room s.rooms with
      | some r => (r, s.rooms)
      | none => ((⟨[], wid, false⟩ : P2Room), setA room ⟨[], wid, false⟩ s.rooms)
    let s1 : P2State := ⟨rooms1, s.conns, s.fresh⟩
    if roomObj.locked = true then (s1, [(wid, P2Msg.lockedMsg)])
    else if roomObj.peers.length ≥ MAX_PER_ROOM then (s1, [(wid, P2Msg.fullMsg MAX_PER_ROOM)])
    else
      let w1 : P2Conn := ⟨w.isOpen, some room, name⟩
      let s2 : P2State := ⟨s1.rooms, setA wid w1 s1.conns, s1.fresh⟩
      -- roster snapshot before the push, peer names read from the stored sockets
      let existingPeers : List (Nat × String × Bool) :=
        roomObj.peers.map fun pid =>
          (pid, ((lookupA pid s2.conns).map fun c => c.name).getD "", pid == roomObj.hostId)
      let roomObj1 : P2Room := ⟨roomObj.peers ++ [wid], roomObj.hostId, roomObj.locked⟩
      let s3 : P2State := ⟨setA room roomObj1 s2.rooms, s2.conns, s2.fresh⟩
      ((s3),
        (wid, P2Msg.joinedMsg wid (wid == roomObj1.hostId) roomObj1.hostId roomObj1.locked
          existingPeers) ::
          roomObj1.peers.filterMap fun pid =>
            if pid ≠ wid ∧ connOpen s3 pid = true then
              some (pid, P2Msg.peerJoinedMsg wid name false)
            else none)

/-- The signal branch of part_002's message handler: the target is looked
up in the sender's own room (findRoomOf uses ws.room); a missing room or
target drops the event silently. -/
def handleSignal (s : P2State) (wid : Nat) (w : P2Conn) (target : Option Nat) (data : String) :
    List (Nat × P2Msg) :=
  match w.room with
  | none => []
  | some rc =>
      match lookupA rc s.rooms with
      | none => []
      | some roomObj =>
          match target with
          | none => []
          | some t =>
              match roomObj.peers.find? fun pid => pid == t with
              | some pid => if connOpen s pid = true then [(pid, P2Msg.signalMsg wid data)] else []
              | none => []

/-- The chat branch of part_002's message handler. -/
def handleChat (s : P2State) (wid : Nat) (w : P2Conn) (text0 : String) : List (Nat × P2Msg) :=
  match w.room with
  | none => []
  | some rc =>
      match lookupA rc s.rooms with
      | none => []
      | some roomObj =>
          let text := jsTake text0 500
          if text = "" then []
          else
            roomObj.peers.filterMap fun pid =>
              if connOpen s pid = true then some (pid, P2Msg.chatMsg w.name text wid) else none

/-- The control branch of part_002's message handler (host only). -/
def handleControl (s : P2State) (wid : Nat) (w : P2Conn) (action : String) (value : Bool)
    (targetId : Option Nat) : P2State × List (Nat × P2Msg) :=
  match w.room with
  | none => (s, [])
  | some rc =>
      match lookupA rc s.rooms with
      | none => (s, [])
      | some roomObj =>
          if roomObj.hostId ≠ wid then (s, [])
          else if action = "lock-room" then
            let roomObj1 : P2Room := ⟨roomObj.peers, roomObj.hostId, value⟩
            let s1 : P2State := ⟨setA rc roomObj1 s.rooms, s.conns, s.fresh⟩
            (s1, broadcast s1 roomObj1 (P2Msg.roomLockMsg value))
          else if action = "mute-mic" then
            match targetId with
            | none => (s, [])
            | some t =>
                match roomObj.peers.find? fun pid => pid == t with
                | some pid =>
                    if connOpen s pid = true then (s, [(pid, P2Msg.controlMsg "mute-mic")])
                    else (s, [])
                | none => (s, [])
          else (s, [])

/-- The status branch of part_002's message handler. -/
def handleStatus (s : P2State) (wid : Nat) (w : P2Conn) (action value : String) :
    List (Nat × P2Msg) :=
  match w.room with
  | none => []
  | some rc =>
      match lookupA rc s.rooms with
      | none => []
      | some roomObj => broadcast s roomObj (P2Msg.statusMsg action wid value)

/-- The reaction branch of part_002's message handler: any non-empty
emoji, truncated to its first eight characters, is broadcast to the
whole room (part_002 has no allow-list and does not exclude the sender). -/
def handleReaction (s : P2State) (wid : Nat) (w : P2Conn) (emoji0 : String) :
    List (Nat × P2Msg) :=
  match w.room with
  | none => []
  | some rc =>
      match lookupA rc s.rooms with
      | none => []
      | some roomObj =>
          let emoji := jsTake emoji0 8
          if emoji = "" then []
          else broadcast s roomObj (P2Msg.reactionMsg wid emoji)

/-- The ws.on('close') handler of part_002. -/
def handleClose (s : P2State) (wid : Nat) (w : P2Conn) : P2State × List (Nat × P2Msg) :=
  let s0 : P2State := ⟨s.rooms, setA wid ⟨false, w.room, w.name⟩ s.conns, s.fresh⟩
  match w.room with
  | none => (s0, [])
  | some rc =>
      match lookupA rc s0.rooms with
      | none => (s0, [])
      | some roomObj =>
          let roomObj1 : P2Room := ⟨roomObj.peers.filter fun pid => pid ≠ wid,
            roomObj.hostId, roomObj.locked⟩
          if roomObj1.peers.length == 0 then
            (⟨eraseA rc s0.rooms, s0.conns, s0.fresh⟩, [])
          else
            let s1 : P2State := ⟨setA rc roomObj1 s0.rooms, s0.conns, s0.fresh⟩
            let out1 := broadcast s1 roomObj1 (P2Msg.peerLeftMsg wid w.name)
            if roomObj1.hostId == wid then
              match roomObj1.peers with
              | [] => (s1, out1)
              | h :: _ =>
                  let roomObj2 : P2Room := ⟨roomObj1.peers, h, roomObj1.locked⟩
                  let s2 : P2State := ⟨setA rc roomObj2 s1.rooms, s1.conns, s1.fresh⟩
                  (s2, out1 ++ broadcast s2 roomObj2 (P2Msg.hostChangedMsg h))
            else (s1, out1)

/-- Inbound events of part_002. -/
inductive P2Event where
  | connect
  | join (cid : Nat) (room name : String)
  | signal (cid : Nat) (target : Option Nat) (data : String)
  | chat (cid : Nat) (text : String)
  | control (cid : Nat) (action : String) (value : Bool) (targetId : Option Nat)
  | status (cid : Nat) (action value : String)
  | reaction (cid : Nat) (emoji : String)
  | close (cid : Nat)
deriving DecidableEq

/-- Run a handler only for an existing open connection. -/
def onOpenConn (s : P2State) (cid : Nat) (f : P2Conn → P2State × List (Nat × P2Msg)) :
    P2State × List (Nat × P2Msg) :=
  match lookupA cid s.conns with
  | some c => if c.isOpen = true then f c else (s, [])
  | none => (s, [])

/-- One atomic event-loop step of part_002. -/
def step (s : P2State) : P2Event → P2State × List (Nat × P2Msg)
  | .connect =>
      (⟨s.rooms, setA s.fresh ⟨true, none, ""⟩ s.conns, s.fresh + 1⟩, [])
  | .join cid room name => onOpenConn s cid fun c => handleJoin s cid c room name
  | .signal cid target data => onOpenConn s cid fun c => (s, handleSignal s cid c target data)
  | .chat cid text => onOpenConn s cid fun c => (s, handleChat s cid c text)
  | .control cid action value targetId =>
      onOpenConn s cid fun c => handleControl s cid c action value targetId
  | .status cid action value => onOpenConn s cid fun c => (s, handleStatus s cid c action value)
  | .reaction cid emoji => onOpenConn s cid fun c => (s, handleReaction s cid c emoji)
  | .close cid => onOpenConn s cid fun c => handleClose s cid c

/-- Empty initial state of part_002. -/
def initState : P2State := ⟨[], [], 0⟩

/-- Fold events through step. -/
def run (s : P2State) : List P2Event → P2State
  | [] => s
  | e :: t => run (step s e).1 t

end PartTwo

/-!
## Model of src/unnamed/part_000, first server (socket.io + room history)

users maps socket.id to (name, room); roomMessages maps a room name to
its bounded history array.  socket.io emission primitives are kept
symbolic: socket.emit, io.to(room).emit and socket.to(room).emit become
the three output constructors.  Message times (ISO timestamps) are
omitted.
-/

namespace PartZero

/-- One entry of the users object of part_000. -/
structure P0User where
  name : String
  room : String
deriving DecidableEq

/-- One chat history entry (the time field is omitted). -/
structure P0Chat where
  user : String
  text : String
  sender : Nat
deriving DecidableEq

/-- Global state of part_000's first server: the users object, the
roomMessages object, and each socket's roomName property. -/
structure P0State where
  users : List (Nat × P0User)
  roomMessages : List (String × List P0Chat)
  conns : List (Nat × Option String)
deriving DecidableEq

/-- Outbound socket.io payloads of part_000's first server. -/
inductive P0Msg where
  | roomUsersMsg (room : String) (users : List (Nat × String))
  | roomHistoryMsg (room : String) (messages : List P0Chat)
  | systemMessageMsg (room : String) (text : String)
  | chatMessageMsg (m : P0Chat)
  | peerLeftMsg (id : Nat)
deriving DecidableEq

/-- socket.io emission primitives, kept symbolic. -/
inductive P0Out where
  | toSocket (sid : Nat) (m : P0Msg)
  | toRoom (room : String) (m : P0Msg)
  | toRoomExcept (room : String) (sid : Nat) (m : P0Msg)
deriving DecidableEq

/-- getUsersInRoom from part_000. -/
def usersInRoom (s : P0State) (room : String) : List (Nat × String) :=
  s.users.filterMap fun q => if q.2.room = room then some (q.1, q.2.name) else none

/-- getRoomHistory from part_000 (a missing entry is the empty array). -/
def getRoomHistory (s : P0State) (room : String) : List P0Chat :=
  (lookupA room s.roomMessages).getD []

/-- The joinRoom handler of part_000's first server.  A payload that is a
bare string is the case user0 = "" (user defaults to Misafir); a missing
room field drops the event. -/
def joinRoom (s : P0State) (sid : Nat) (room user0 : String) : P0State × List P0Out :=
  if room = "" then (s, [])
  else
    let user := if user0 = "" then "Misafir" else user0
    let prevRoom := (lookupA sid s.conns).getD none
    let prevUser := lookupA sid s.users
    let s1 : P0State :=
      ⟨setA sid ⟨user, room⟩ s.users, s.roomMessages, setA sid (some room) s.conns⟩
    let prevOuts : List P0Out :=
      match prevRoom with
      | some pr =>
          if pr ≠ room then
            [P0Out.toRoom pr (.roomUsersMsg pr (usersInRoom s1 pr)),
             P0Out.toRoomExcept pr sid (.peerLeftMsg sid),
             P0Out.toRoom pr (.systemMessageMsg pr
               ((match prevUser with
                 | some u => if u.name = "" then "Bir kullanıcı" else u.name
                 | none => "Bir kullanıcı") ++ " kanaldan ayrıldı"))]
          else []
      | none => []
    (s1, prevOuts ++
      [P0Out.toRoom room (.roomUsersMsg room (usersInRoom s1 room)),
       P0Out.toSocket sid (.roomHistoryMsg room (getRoomHistory s1 room)),
       P0Out.toRoomExcept room sid (.systemMessageMsg room (user ++ " kanala katıldı"))])

/-- The chatMessage handler of part_000's first server: push the message,
evict the oldest entry when the buffer exceeds 100, broadcast to the
room. -/
def chatMessage (s : P0State) (sid : Nat) (room user text : String) : P0State × List P0Out :=
  if room = "" ∨ text = "" then (s, [])
  else
    let msg : P0Chat := ⟨user, text, sid⟩
    let pushed := (lookupA room s.roomMessages).getD [] ++ [msg]
    let newBuf := if pushed.length > 100 then pushed.drop 1 else pushed
    (⟨s.users, setA room newBuf s.roomMessages, s.conns⟩,
      [P0Out.toRoom room (.chatMessageMsg msg)])

/-- The disconnect handler of part_000's first server. -/
def disconnect (s : P0State) (sid : Nat) : P0State × List P0Out :=
  match lookupA sid s.users with
  | none => (⟨s.users, s.roomMessages, eraseA sid s.conns⟩, [])
  | some u =>
      let s1 : P0State := ⟨eraseA sid s.users, s.roomMessages, eraseA sid s.conns⟩
      (s1,
        [P0Out.toRoom u.room (.roomUsersMsg u.room (usersInRoom s1 u.room)),
         P0Out.toRoomExcept u.room sid (.peerLeftMsg sid),
         P0Out.toRoom u.room (.systemMessageMsg u.room
           ((if u.name = "" then "Bir kullanıcı" else u.name) ++ " odadan ayrıldı"))])

/-- Inbound events of part_000's first server that touch the state
(typing and WebRTC relays neither read nor write users/roomMessages). -/
inductive P0Event where
  | joinRoom (sid : Nat) (room user : String)
  | chatMessage (sid : Nat) (room user text : String)
  | disconnect (sid : Nat)
deriving DecidableEq

/-- One atomic event-loop step of part_000's first server. -/
def step (s : P0State) : P0Event → P0State × List P0Out
  | .joinRoom sid room user => joinRoom s sid room user
  | .chatMessage sid room user text => chatMessage s sid room user text
  | .disconnect sid => disconnect s sid

/-- Empty initial state of part_000's first server. -/
def initState : P0State := ⟨[], [], []⟩

/-- Fold events through step. -/
def run (s : P0State) : List P0Event → P0State
  | [] => s
  | e :: t => run (step s e).1 t

/-- States this server can actually be in. -/
def Reachable (s : P0State) : Prop := ∃ evs, run initState evs = s

end PartZero

/-!
## Model of src/unnamed/part_001 (socket.io variant with validation,
rate limiting and sanitize-html)

Only the pieces the claims touch are embedded: the config constants, the
validators, the per-socket rate limiter, the join-room handler and the
send-message handler.  sanitize-html is an external library whose
internals are out of scope; it enters as an explicit function parameter
(its contract: strip markup).  Timestamps (joinedAt, lastSeen,
lastActivity, message times) and the userSessions bookkeeping (loggable
only) are omitted.  socket.io emission primitives are symbolic, as for
part_000.
-/

namespace PartOne

/-- config.rooms.maxMessageLength from part_001. -/
def maxMessageLength : Nat := 500

/-- config.rooms.maxUsernameLength from part_001. -/
def maxUsernameLength : Nat := 20

/-- config.security.socketRateLimit.maxEventsPerMinute from part_001. -/
def maxEventsPerMinute : Nat := 60

/-- One user entry of a part_001 room (joinedAt / lastSeen timestamps
omitted). -/
structure P1User where
  id : Nat
  name : String
  isHost : Bool
  isMuted : Bool
  isSpeaking : Bool
deriving DecidableEq

/-- room.stats from part_001. -/
structure P1Stats where
  totalMessages : Nat
  totalUsers : Nat
deriving DecidableEq

/-- A part_001 room: its users array, settings.maxUsers and stats
(createdAt / lastActivity / createdBy and the constant settings flags
are omitted). -/
structure P1Room where
  users : List P1User
  maxUsers : Nat
  stats : P1Stats
deriving DecidableEq

/-- One entry of socketRateLimitMap. -/
structure RateEntry where
  count : Nat
  firstEvent : Nat
deriving DecidableEq

/-- Global state of part_001: the rooms Map, each socket's roomCode
property, and the socket rate-limit map. -/
structure P1State where
  rooms : List (String × P1Room)
  sockets : List (Nat × Option String)
  rate : List (Nat × RateEntry)
deriving DecidableEq

/-- Outbound socket.io payloads of part_001 relevant to the embedded
handlers. -/
inductive P1Msg where
  | errorMsg (message : String)
  | roomJoinedMsg (roomCode : String) (user : P1User) (participants : List P1User)
      (existingUsers : List (Nat × String))
  | newUserJoinedMsg (socketId : Nat) (userName : String)
  | userJoinedMsg (userName : String) (participants : List P1User) (socketId : Nat)
  | updateParticipantsMsg (participants : List P1User)
  | receiveMessageMsg (userName message msgType : String)
deriving DecidableEq

/-- socket.io emission primitives of part_001, kept symbolic. -/
inductive P1Out where
  | toSender (m : P1Msg)
  | toRoomExcept (room : String) (sid : Nat) (m : P1Msg)
  | toRoomAll (room : String) (m : P1Msg)
deriving DecidableEq

/-- checkSocketRateLimit from part_001 (fixed 60-second window, 60
events), returning the verdict and the updated map. -/
def checkSocketRateLimit (m : List (Nat × RateEntry)) (sid now : Nat) :
    Bool × List (Nat × RateEntry) :=
  match lookupA sid m with
  | none => (true, setA sid ⟨1, now⟩ m)
  | some e =>
      if now - e.firstEvent > 60000 then (true, setA sid ⟨1, now⟩ m)
      else if e.count ≥ maxEventsPerMinute then (false, m)
      else (true, setA sid ⟨e.count + 1, e.firstEvent⟩ m)

/-- The character class [A-Z0-9] of part_001's room-code regex. -/
def upperAlnum (ch : Char) : Bool :=
  (decide ('A' ≤ ch) && decide (ch ≤ 'Z')) || (decide ('0' ≤ ch) && decide (ch ≤ '9'))

/-- validateJoinRoom from part_001.  The empty string models a missing or
non-string field. -/
def validateJoinRoom (sanitize : String → String) (roomCode userName : String) :
    List String :=
  (if roomCode = "" then ["Oda kodu gereklidir"]
   else if roomCode.length ≠ 6 then ["Oda kodu 6 haneli olmalıdır"]
   else if (roomCode.toList.all upperAlnum) = false then
     ["Oda kodu sadece büyük harf ve rakamlardan oluşabilir"]
   else []) ++
  (if userName = "" then ["Kullanıcı adı gereklidir"]
   else
     let sn := sanitize (jsTrim userName)
     if sn.length = 0 then ["Geçersiz kullanıcı adı"]
     else if sn.length > maxUsernameLength then ["Kullanıcı adı 20 karakteri geçemez"]
     else [])

/-- The result of validateMessage from part_001. -/
inductive P1Validation where
  | invalid (error : String)
  | valid (sanitizedText : String)
deriving DecidableEq

/-- validateMessage from part_001: a missing or empty text is required,
an empty sanitized+trimmed text is rejected as empty, a sanitized text
longer than 500 is rejected as too long. -/
def validateMessage (sanitize : String → String) (text : Option String) : P1Validation :=
  match text with
  | none => .invalid "Mesaj gereklidir"
  | some t =>
      if t = "" then .invalid "Mesaj gereklidir"
      else
        let st := sanitize (jsTrim t)
        if st.length = 0 then .invalid "Mesaj boş olamaz"
        else if st.length > maxMessageLength then .invalid "Mesaj 500 karakteri geçemez"
        else .valid st

/-- The join-room handler of part_001. -/
def joinRoom (sanitize : String → String) (s : P1State) (sid now : Nat)
    (roomCode0 userName0 : String) : P1State × List P1Out :=
  let (ok, rate1) := checkSocketRateLimit s.rate sid now
  let s1 : P1State := ⟨s.rooms, s.sockets, rate1⟩
  if ok = false then
    (s1, [P1Out.toSender (.errorMsg "Çok hızlı istek gönderiyorsunuz. Lütfen bekleyin.")])
  else
    match validateJoinRoom sanitize roomCode0 userName0 with
    | e :: _ => (s1, [P1Out.toSender (.errorMsg e)])
    | [] =>
        let roomCode := jsToUpper roomCode0
        let userName := sanitize (jsTrim userName0)
        match lookupA roomCode s1.rooms with
        | none => (s1, [P1Out.toSender (.errorMsg "Oda bulunamadı!")])
        | some room =>
            if room.users.length ≥ room.maxUsers then
              (s1, [P1Out.toSender (.errorMsg "Oda dolu! Maksimum kullanıcı sayısına ulaşıldı.")])
            else
              match room.users.find? fun u => u.id == sid with
              | some _ => (s1, [P1Out.toSender (.errorMsg "Zaten bu odadasınız!")])
              | none =>
                  let user : P1User := ⟨sid, userName, room.users.length == 0, true, false⟩
                  let room1 : P1Room := ⟨room.users ++ [user], room.maxUsers,
                    ⟨room.stats.totalMessages, room.stats.totalUsers + 1⟩⟩
                  let s2 : P1State := ⟨setA roomCode room1 s1.rooms,
                    setA sid (some roomCode) s1.sockets, s1.rate⟩
                  let existingUsers : List (Nat × String) :=
                    room1.users.filterMap fun u =>
                      if u.id ≠ sid then some (u.id, u.name) else none
                  (s2,
                    [P1Out.toSender (.roomJoinedMsg roomCode user room1.users existingUsers),
                     P1Out.toRoomExcept roomCode sid (.newUserJoinedMsg sid userName),
                     P1Out.toRoomExcept roomCode sid (.userJoinedMsg userName room1.users sid),
                     P1Out.toRoomAll roomCode (.updateParticipantsMsg room1.users),
                     P1Out.toRoomExcept roomCode sid
                       (.receiveMessageMsg "Sistem" (userName ++ " odaya katıldı") "system")])

/-- The send-message handler of part_001. -/
def sendMessage (sanitize : String → String) (s : P1State) (sid now : Nat)
    (message : Option String) : P1State × List P1Out :=
  let (ok, rate1) := checkSocketRateLimit s.rate sid now
  let s1 : P1State := ⟨s.rooms, s.sockets, rate1⟩
  if ok = false then
    (s1, [P1Out.toSender (.errorMsg "Çok hızlı istek gönderiyorsunuz. Lütfen bekleyin.")])
  else
    match validateMessage sanitize message with
    | .invalid e => (s1, [P1Out.toSender (.errorMsg e)])
    | .valid st =>
        match lookupA sid s1.sockets with
        | some (some rc) =>
            (match lookupA rc s1.rooms with
            | some room =>
                (match room.users.find? fun u => u.id == sid with
                | some user =>
                    let room1 : P1Room := ⟨room.users, room.maxUsers,
                      ⟨room.stats.totalMessages + 1, room.stats.totalUsers⟩⟩
                    (⟨setA rc room1 s1.rooms, s1.sockets, s1.rate⟩,
                      [P1Out.toRoomExcept rc sid (.receiveMessageMsg user.name st "user")])
                | none => (s1, []))
            | none => (s1, []))
        | _ => (s1, [])

end PartOne

/-!
## Model of src/unnamed/part_004 (Webber.io multi-modal P2P signal server)

rooms maps a roomId to (peers Map keyed by generated peerId, mode,
messages); the peers Map values hold the socket reference and mode
(joinedAt omitted).  The handlers the claims touch are embedded:
getRoom, the join-room handler with its emissions, the chat history
append, and the room cleanup of the disconnect handler.
-/

namespace PartFour

/-- A stored peer of a part_004 room: the socket it points to and its
mode (joinedAt omitted). -/
structure P4Peer where
  conn : Nat
  mode : String
deriving DecidableEq

/-- One stored chat message of part_004 (timestamp omitted). -/
structure P4Msg where
  peerId : Nat
  message : String
deriving DecidableEq

/-- A part_004 room.  The messages array is created lazily by the chat
handler; a room without one behaves as the empty array, which is how we
model it (createdAt omitted). -/
structure P4Room where
  peers : List (Nat × P4Peer)
  mode : String
  messages : List P4Msg
deriving DecidableEq

/-- getRoom from part_004: return the room, creating it in chat mode
with no peers (and hence no messages) when absent.  Returns the room and
the updated registry. -/
def getRoom (rooms : List (String × P4Room)) (roomId : String) :
    P4Room × List (String × P4Room) :=
  match lookupA roomId rooms with
  | some r => (r, rooms)
  | none => ((⟨[], "chat", []⟩ : P4Room), setA roomId ⟨[], "chat", []⟩ rooms)

/-- The payloads part_004's join-room handler emits (timestamps
omitted).  Note neither carries the room's stored messages. -/
inductive P4OutMsg where
  | peerJoinedMsg (peerId : Nat) (mode : String)
  | roomStateMsg (roomId : String) (mode : String) (peers : List Nat) (you : Nat)
deriving DecidableEq

/-- socket.io emission primitives of part_004, kept symbolic:
socket.to(roomId).emit and socket.emit. -/
inductive P4Out where
  | toRoomExcept (roomId : String) (conn : Nat) (m : P4OutMsg)
  | toSocket (conn : Nat) (m : P4OutMsg)
deriving DecidableEq

/-- The join-room handler of part_004: leave the previous room (deleting
it when emptied), insert the peer into the target room obtained from
getRoom, notify the other peers with peer-joined, and send the new peer
room-state carrying the room's mode and the peer-id list excluding
itself — the stored messages array is not read and not sent.  Returns
the updated registry, the new currentRoom, and the emissions in order. -/
def joinRoom (rooms : List (String × P4Room)) (currentRoom : Option String)
    (roomId : String) (peerId conn : Nat) (mode : String) :
    List (String × P4Room) × Option String × List P4Out :=
  let rooms1 :=
    match currentRoom with
    | some cr =>
        (match lookupA cr rooms with
        | some oldRoom =>
            let old1 : P4Room := ⟨eraseA peerId oldRoom.peers, oldRoom.mode, oldRoom.messages⟩
            if old1.peers.length == 0 then eraseA cr rooms else setA cr old1 rooms
        | none => rooms)
    | none => rooms
  let (room, rooms2) := getRoom rooms1 roomId
  let room1 : P4Room := ⟨setA peerId ⟨conn, mode⟩ room.peers, room.mode, room.messages⟩
  let peerList := (room1.peers.map Prod.fst).filter fun id => id ≠ peerId
  (setA roomId room1 rooms2, some roomId,
    [P4Out.toRoomExcept roomId conn (.peerJoinedMsg peerId mode),
     P4Out.toSocket conn (.roomStateMsg roomId room1.mode peerList peerId)])

/-- The history append of part_004's chat-message handler: push, then
shift once when the length exceeds 100. -/
def chatStore (room : P4Room) (m : P4Msg) : P4Room :=
  let pushed := room.messages ++ [m]
  ⟨room.peers, room.mode, if pushed.length > 100 then pushed.drop 1 else pushed⟩

/-- The room cleanup of part_004's disconnect handler: delete the peer
and delete the room when it became empty. -/
def disconnectRegistry (rooms : List (String × P4Room)) (roomId : String) (peerId : Nat) :
    List (String × P4Room) :=
  match lookupA roomId rooms with
  | none => rooms
  | some room =>
      let room1 : P4Room := ⟨eraseA peerId room.peers, room.mode, room.messages⟩
      if room1.peers.length == 0 then eraseA roomId rooms
      else setA roomId room1 rooms

end PartFour

/-!
## Registry invariants of src/server.js
-/

theorem mem_of_lookupA {κ α : Type} [DecidableEq κ] {k : κ} {v : α} {l : List (κ × α)}
    (h : lookupA k l = some v) : (k, v) ∈ l := by
  induction l with
  | nil => simp [lookupA] at h
  | cons q t ih =>
    obtain ⟨a, b⟩ := q
    by_cases hq : a = k
    · simp [lookupA, hq] at h
      simp [hq, h]
    · simp [lookupA, hq] at h
      simp [ih h]

theorem eraseA_setA {κ α : Type} [DecidableEq κ] (k : κ) (v : α) (l : List (κ × α)) :
    eraseA k (setA k v l) = eraseA k l := by
  induction l with
  | nil => simp [setA, eraseA]
  | cons q t ih =>
    obtain ⟨a, b⟩ := q
    by_cases hq : a = k
    · simp [setA, hq, eraseA]
    · simp [setA, hq, eraseA, ih]

namespace ServerJs

/-- The per-room invariant: at least one client, hostId a member, and
every client id generated (below the freshness counter). -/
def RoomOk (fresh : Nat) (p : String × SRoom) : Prop :=
  p.2.clients ≠ [] ∧ hostOk p.2 = true ∧ ∀ q ∈ p.2.clients, q.1 < fresh

instance (fresh : Nat) (p : String × SRoom) : Decidable (RoomOk fresh p) := by
  unfold RoomOk; infer_instance

/-- The registry invariant of src/server.js. -/
def Inv (s : SState) : Prop := ∀ p ∈ s.rooms, RoomOk s.fresh p

instance (s : SState) : Decidable (Inv s) := by
  unfold Inv; infer_instance

theorem hostOk_iff (r : SRoom) :
    hostOk r = true ↔ ∃ h, r.hostId = some h ∧ (lookupA h r.clients).isSome = true := by
  unfold hostOk
  cases r.hostId with
  | none => simp
  | some h => simp

theorem roomOk_mono {f f' : Nat} (hf : f ≤ f') {p : String × SRoom} (hp : RoomOk f p) :
    RoomOk f' p :=
  ⟨hp.1, hp.2.1, fun q hq => lt_of_lt_of_le (hp.2.2 q hq) hf⟩

theorem inv_joinResolved (s2 : SState) (cid clientId : Nat) (rc nm : String) (r : SRoom)
    (h2 : Inv s2) (hfr : clientId < s2.fresh)
    (hbound : ∀ q ∈ r.clients, q.1 < clientId)
    (hhost : r.clients ≠ [] → hostOk r = true) :
    Inv (joinResolved s2 cid clientId rc nm r).1 := by
  simp only [joinResolved]
  split
  · exact h2
  · split
    · exact h2
    · intro p hp
      simp only at hp
      rcases mem_setA hp with hp' | hp'
      · exact h2 p hp'
      · subst hp'
        refine ⟨setA_ne_nil _ _ _, ?_, ?_⟩
        · by_cases hemp : (r.clients.length == 0) = true
          · simp only [hostOk, hemp, if_pos rfl]
            simp [lookupA_setA_self]
          · have hne : r.clients ≠ [] := by
              intro hnil
              simp [hnil] at hemp
            rcases (hostOk_iff r).mp (hhost hne) with ⟨hh, hhe, hhs⟩
            have hhlt : hh < clientId := by
              rcases Option.isSome_iff_exists.mp hhs with ⟨hv, hve⟩
              exact hbound _ (mem_of_lookupA hve)
            have hrw : (if (r.clients.length == 0) = true then some clientId else r.hostId) =
                some hh := by
              simp [hemp, hhe]
            simp only [hostOk, hrw]
            rw [lookupA_setA_ne _ _ (Nat.ne_of_lt hhlt)]
            exact hhs
        · intro q hq
          simp only at hq
          rcases mem_setA hq with hq' | hq'
          · exact lt_trans (hbound q hq') hfr
          · subst hq'
            exact hfr

theorem inv_handleJoin (s : SState) (cid : Nat) (c : SConn) (rc nm : String) (h : Inv s) :
    Inv (handleJoin s cid c rc nm).1 := by
  simp only [handleJoin]
  split
  · exact h
  · have hmono : Inv (⟨s.rooms, setA cid ⟨c.isOpen, some s.fresh, some rc,
        if nm = "" then "Misafir" else nm⟩ s.conns, s.fresh + 1⟩ : SState) := by
      intro p hp
      exact roomOk_mono (Nat.le_succ _) (h p hp)
    cases hlook : lookupA rc s.rooms with
    | some r =>
      simp only [hlook]
      have hrok := h _ (mem_of_lookupA hlook)
      refine inv_joinResolved _ _ _ _ _ _ hmono (Nat.lt_succ_self _) ?_ ?_
      · exact fun q hq => hrok.2.2 q hq
      · exact fun _ => hrok.2.1
    | none =>
      simp only [hlook]
      simp only [joinResolved]
      split
      · rename_i hcontra
        simp at hcontra
      · split
        · rename_i hcontra
          simp [MAX_ROOM_SIZE] at hcontra
        · intro p hp
          simp only [setA_setA] at hp
          rcases mem_setA hp with hp' | hp'
          · exact roomOk_mono (Nat.le_succ _) (h p hp')
          · subst hp'
            refine ⟨setA_ne_nil _ _ _, ?_, ?_⟩
            · simp [hostOk, setA, lookupA]
            · intro q hq
              rcases mem_setA hq with hq' | hq'
              · simp at hq'
              · subst hq'
                exact Nat.lt_succ_self _

theorem inv_handleControl (s : SState) (c : SConn) (rc action : String) (value : Bool)
    (targetId : Option Nat) (h : Inv s) :
    Inv (handleControl s c rc action value targetId).1 := by
  simp only [handleControl]
  split
  · exact h
  · split
    · exact h
    · rename_i room hlook
      have hrok := h _ (mem_of_lookupA hlook)
      split
      · exact h
      · split
        · intro p hp
          simp only at hp
          rcases mem_setA hp with hp' | hp'
          · exact h p hp'
          · subst hp'
            exact ⟨hrok.1, hrok.2.1, hrok.2.2⟩
        · split
          · split
            · exact h
            · split
              · exact h
              · exact h
          · exact h

theorem inv_handleClose (s : SState) (cid : Nat) (c : SConn) (h : Inv s) :
    Inv (handleClose s cid c).1 := by
  simp only [handleClose]
  split
  · rename_i rc0 i0 hrceq hcieq
    split
    · exact h
    · rename_i room hlook
      have hrok := h _ (mem_of_lookupA hlook)
      split
      · -- room emptied: deleted
        intro p hp
        simp only at hp
        rw [eraseA_setA] at hp
        exact h p (mem_eraseA hp)
      · rename_i hnonempty
        split
        · -- host left: first remaining key becomes host
          split
          · -- eraseA i room.clients = [] contradicts the nonempty branch
            rename_i herase
            exact absurd (by simp [herase]) hnonempty
          · rename_i h1 hc1 t1 herase
            intro p hp
            simp only [setA_setA] at hp
            rcases mem_setA hp with hp' | hp'
            · exact h p hp'
            · subst hp'
              refine ⟨setA_ne_nil _ _ _, ?_, ?_⟩
              · simp [hostOk, lookupA_setA_self]
              · intro q hq
                simp only at hq
                rcases mem_setA hq with hq' | hq'
                · exact hrok.2.2 q (mem_eraseA hq')
                · subst hq'
                  have hmem : (h1, hc1) ∈ eraseA i0 room.clients := by
                    rw [herase]
                    exact List.mem_cons_self _ _
                  have hlt : h1 < s.fresh := hrok.2.2 _ (mem_eraseA hmem)
                  exact hlt
        · rename_i hwas
          intro p hp
          simp only at hp
          rcases mem_setA hp with hp' | hp'
          · exact h p hp'
          · subst hp'
            refine ⟨?_, ?_, ?_⟩
            · intro hnil
              simp only at hnil
              exact hnonempty (by simp [hnil])
            · rcases (hostOk_iff room).mp hrok.2.1 with ⟨hh, hhe, hhs⟩
              have hhne : hh ≠ i0 := by
                intro heq
                subst heq
                simp [hhe] at hwas
              rw [hostOk_iff]
              exact ⟨hh, hhe, by rw [lookupA_eraseA_ne _ hhne]; exact hhs⟩
            · intro q hq
              exact hrok.2.2 q (mem_eraseA hq)
  · exact h

theorem inv_step (s : SState) (e : SEvent) (h : Inv s) : Inv (step s e).1 := by
  have honp : ∀ cid (f : SConn → SState × List (Nat × SMsg)),
      (∀ c, lookupA cid s.conns = some c → c.isOpen = true → Inv (f c).1) →
      Inv (onOpenConn s cid f).1 := by
    intro cid f hf
    unfold onOpenConn
    split
    · rename_i c hc
      split
      · rename_i hopen
        exact hf c hc hopen
      · exact h
    · exact h
  cases e with
  | connect =>
    intro p hp
    exact roomOk_mono (Nat.le_succ _) (h p hp)
  | join cid room name =>
    exact honp _ _ fun c _ _ => inv_handleJoin s cid c room name h
  | signal cid room target data =>
    exact honp _ _ fun c _ _ => h
  | chat cid room text =>
    exact honp _ _ fun c _ _ => h
  | status cid room action value =>
    exact honp _ _ fun c _ _ => h
  | reaction cid room emoji =>
    exact honp _ _ fun c _ _ => h
  | control cid room action value targetId =>
    exact honp _ _ fun c _ _ => inv_handleControl s c room action value targetId h
  | close cid =>
    exact honp _ _ fun c _ _ => inv_handleClose s cid c h

theorem inv_run (s : SState) (evs : List SEvent) (h : Inv s) : Inv (run s evs) := by
  induction evs generalizing s with
  | nil => exact h
  | cons e t ih => exact ih _ (inv_step s e h)

theorem inv_init : Inv initState := by
  intro p hp
  simp [initState] at hp

theorem reachable_inv {s : SState} (h : Reachable s) : Inv s := by
  rcases h with ⟨evs, rfl⟩
  exact inv_run _ _ inv_init

theorem run_append (s : SState) (a b : List SEvent) :
    run s (a ++ b) = run (run s a) b := by
  induction a generalizing s with
  | nil => simp [run]
  | cons e t ih => simp [run, ih]

end ServerJs

/-!
## Key uniqueness of the registries
-/

theorem lookupA_eq_none_of_not_mem_keys {κ α : Type} [DecidableEq κ] {k : κ}
    {l : List (κ × α)} (h : k ∉ l.map Prod.fst) : lookupA k l = none := by
  induction l with
  | nil => simp [lookupA]
  | cons q t ih =>
    have h1 : q.1 ≠ k := by
      intro hh
      exact h (by simp [← hh])
    have h2 : k ∉ t.map Prod.fst := by
      intro hh
      exact h (by simp [hh])
    simp [lookupA, h1, ih h2]

theorem nodup_keys_setA {κ α : Type} [DecidableEq κ] (k : κ) (v : α) {l : List (κ × α)}
    (h : (l.map Prod.fst).Nodup) : ((setA k v l).map Prod.fst).Nodup := by
  induction l with
  | nil => simp [setA]
  | cons q t ih =>
    obtain ⟨a, b⟩ := q
    rw [List.map_cons, List.nodup_cons] at h
    by_cases hq : a = k
    · subst hq
      rw [show setA a v ((a, b) :: t) = (a, v) :: t by simp [setA]]
      rw [List.map_cons, List.nodup_cons]
      exact ⟨h.1, h.2⟩
    · rw [show setA k v ((a, b) :: t) = (a, b) :: setA k v t by simp [setA, hq]]
      rw [List.map_cons, List.nodup_cons]
      refine ⟨?_, ih h.2⟩
      intro hmem
      rcases List.mem_map.mp hmem with ⟨x, hx, hxa⟩
      rcases mem_setA hx with hx' | hx'
      · exact h.1 (List.mem_map.mpr ⟨x, hx', hxa⟩)
      · subst hx'
        exact hq hxa.symm

theorem nodup_keys_eraseA {κ α : Type} [DecidableEq κ] (k : κ) {l : List (κ × α)}
    (h : (l.map Prod.fst).Nodup) : ((eraseA k l).map Prod.fst).Nodup := by
  induction l with
  | nil => simp [eraseA]
  | cons q t ih =>
    obtain ⟨a, b⟩ := q
    rw [List.map_cons, List.nodup_cons] at h
    by_cases hq : a = k
    · rw [show eraseA k ((a, b) :: t) = t by simp [eraseA, hq]]
      exact h.2
    · rw [show eraseA k ((a, b) :: t) = (a, b) :: eraseA k t by simp [eraseA, hq]]
      rw [List.map_cons, List.nodup_cons]
      refine ⟨?_, ih h.2⟩
      intro hmem
      rcases List.mem_map.mp hmem with ⟨x, hx, hxa⟩
      exact h.1 (List.mem_map.mpr ⟨x, mem_eraseA hx, hxa⟩)

theorem lookupA_eraseA_self {κ α : Type} [DecidableEq κ] (k : κ) {l : List (κ × α)}
    (h : (l.map Prod.fst).Nodup) : lookupA k (eraseA k l) = none := by
  induction l with
  | nil => simp [eraseA, lookupA]
  | cons q t ih =>
    obtain ⟨a, b⟩ := q
    rw [List.map_cons, List.nodup_cons] at h
    by_cases hq : a = k
    · subst hq
      rw [show eraseA a ((a, b) :: t) = t by simp [eraseA]]
      exact lookupA_eq_none_of_not_mem_keys h.1
    · rw [show eraseA k ((a, b) :: t) = (a, b) :: eraseA k t by simp [eraseA, hq]]
      simp [lookupA, hq, ih h.2]

namespace ServerJs

/-- The room registry never holds two entries for one room code. -/
def RoomsNodup (s : SState) : Prop := (s.rooms.map Prod.fst).Nodup

instance (s : SState) : Decidable (RoomsNodup s) := by
  unfold RoomsNodup
  infer_instance

theorem nodup_joinResolved (s2 : SState) (cid clientId : Nat) (rc nm : String) (r : SRoom)
    (h2 : RoomsNodup s2) : RoomsNodup (joinResolved s2 cid clientId rc nm r).1 := by
  simp only [joinResolved]
  split
  · exact h2
  · split
    · exact h2
    · exact nodup_keys_setA _ _ h2

theorem nodup_step (s : SState) (e : SEvent) (h : RoomsNodup s) :
    RoomsNodup (step s e).1 := by
  have honp : ∀ cid (f : SConn → SState × List (Nat × SMsg)),
      (∀ c, lookupA cid s.conns = some c → c.isOpen = true → RoomsNodup (f c).1) →
      RoomsNodup (onOpenConn s cid f).1 := by
    intro cid f hf
    unfold onOpenConn
    split
    · rename_i c hc
      split
      · rename_i hopen
        exact hf c hc hopen
      · exact h
    · exact h
  cases e with
  | connect => exact h
  | join cid room name =>
    refine honp _ _ fun c _ _ => ?_
    simp only [handleJoin]
    split
    · exact h
    · cases hlook : lookupA room s.rooms with
      | some r =>
        simp only [hlook]
        exact nodup_joinResolved _ _ _ _ _ _ h
      | none =>
        simp only [hlook]
        exact nodup_joinResolved _ _ _ _ _ _ (nodup_keys_setA _ _ h)
  | signal cid room target data => exact honp _ _ fun c _ _ => h
  | chat cid room text => exact honp _ _ fun c _ _ => h
  | status cid room action value => exact honp _ _ fun c _ _ => h
  | reaction cid room emoji => exact honp _ _ fun c _ _ => h
  | control cid room action value targetId =>
    refine honp _ _ fun c _ _ => ?_
    simp only [handleControl]
    split
    · exact h
    · split
      · exact h
      · split
        · exact h
        · split
          · exact nodup_keys_setA _ _ h
          · split
            · split
              · exact h
              · split
                · exact h
                · exact h
            · exact h
  | close cid =>
    refine honp _ _ fun c _ _ => ?_
    simp only [handleClose]
    split
    · split
      · exact h
      · split
        · exact nodup_keys_eraseA _ (nodup_keys_setA _ _ h)
        · split
          · split
            · exact nodup_keys_setA _ _ h
            · exact nodup_keys_setA _ _ (nodup_keys_setA _ _ h)
          · exact nodup_keys_setA _ _ h
    · exact h

theorem nodup_run (s : SState) (evs : List SEvent) (h : RoomsNodup s) :
    RoomsNodup (run s evs) := by
  induction evs generalizing s with
  | nil => exact h
  | cons e t ih => exact ih _ (nodup_step s e h)

theorem reachable_nodup {s : SState} (h : Reachable s) : RoomsNodup s := by
  rcases h with ⟨evs, rfl⟩
  exact nodup_run _ _ (by simp [initState, RoomsNodup])

/-- Delivery of a broadcast: every member of the target room whose socket
is open receives the message. -/
theorem mem_broadcastToRoom (s : SState) (rc : String) (msg : SMsg) {room : SRoom}
    (hlook : lookupA rc s.rooms = some room) {q : Nat × SClient} (hq : q ∈ room.clients)
    (hopen : connOpen s q.2.ws = true) :
    (q.2.ws, msg) ∈ broadcastToRoom s rc msg none := by
  unfold broadcastToRoom
  rw [hlook]
  exact List.mem_filterMap.mpr ⟨q, hq, by simp [hopen]⟩

end ServerJs

namespace ServerJs

theorem onOpenConn_eq (s : SState) (cid : Nat) (c : SConn)
    (f : SConn → SState × List (Nat × SMsg))
    (hconn : lookupA cid s.conns = some c) (hopen : c.isOpen = true) :
    onOpenConn s cid f = f c := by
  unfold onOpenConn
  simp only [hconn]
  rw [if_pos hopen]

end ServerJs

/-- Claim C1: in src/server.js every room holding at least one peer has
hostId pointing at a current member (an invariant of all reachable
states); a successful join appends the new member at the tail of the
clients Map insertion order, so list position is join order and the head
of the remaining order is the earliest remaining joiner; and when the
host's connection closes while at least one member remains, within that
same atomic close step hostId is reassigned to the head of the remaining
insertion order (the earliest remaining joiner — deterministic), that
member's isHost flag is set, and a host-changed event naming the new
host is delivered to every remaining member whose socket is open, the
new host included (which is how it learns it is now host), all before
any next event for the room can be processed. -/
theorem C1_host_member_and_succession :
    (∀ s, ServerJs.Reachable s → ∀ p ∈ s.rooms, p.2.clients ≠ [] →
      ∃ h, p.2.hostId = some h ∧ (lookupA h p.2.clients).isSome = true)
    ∧
    (∀ s cid c rc nm r, ServerJs.Inv s →
      lookupA cid s.conns = some c → c.isOpen = true → rc ≠ "" →
      lookupA rc s.rooms = some r →
      ¬(r.locked = true ∧ r.clients.length > 0) →
      r.clients.length < ServerJs.MAX_ROOM_SIZE →
      ∃ r', lookupA rc (ServerJs.step s (.join cid rc nm)).1.rooms = some r' ∧
        r'.clients = r.clients ++
          [(s.fresh, ⟨cid, if nm = "" then "Misafir" else nm, r.clients.length == 0⟩)])
    ∧
    (∀ s cid c rc i r h1 hc1 t1, lookupA cid s.conns = some c → c.isOpen = true →
      c.clientId = some i → c.currentRoom = some rc →
      lookupA rc s.rooms = some r → r.hostId = some i →
      eraseA i r.clients = (h1, hc1) :: t1 →
      lookupA rc (ServerJs.step s (.close cid)).1.rooms =
        some ⟨(h1, ⟨hc1.ws, hc1.name, true⟩) :: t1, r.locked, some h1⟩ ∧
      ∀ q ∈ ((h1, (⟨hc1.ws, hc1.name, true⟩ : ServerJs.SClient)) :: t1),
        ServerJs.connOpen (ServerJs.step s (.close cid)).1 q.2.ws = true →
        (q.2.ws, ServerJs.SMsg.hostChangedMsg (some h1)) ∈ (ServerJs.step s (.close cid)).2) := by
  refine ⟨?_, ?_, ?_⟩
  · intro s hs p hp _
    exact (ServerJs.hostOk_iff p.2).mp ((ServerJs.reachable_inv hs) p hp).2.1
  · intro s cid c rc nm r hinv hconn hopen hrc hlook hlock hfull
    rw [show ServerJs.step s (.join cid rc nm) = ServerJs.handleJoin s cid c rc nm from
      ServerJs.onOpenConn_eq s cid c _ hconn hopen]
    simp only [ServerJs.handleJoin, if_neg hrc, hlook]
    simp only [ServerJs.joinResolved, if_neg hlock, if_neg (Nat.not_le.mpr hfull)]
    refine ⟨_, lookupA_setA_self _ _ _, ?_⟩
    have hb := (hinv _ (mem_of_lookupA hlook)).2.2
    exact setA_of_forall_ne _ (fun q hq => Nat.ne_of_lt (hb q hq))
  · intro s cid c rc i r h1 hc1 t1 hconn hopen hci hcr hlook hhost herase
    rw [show ServerJs.step s (.close cid) = ServerJs.handleClose s cid c from
      ServerJs.onOpenConn_eq s cid c _ hconn hopen]
    simp only [ServerJs.handleClose, hcr, hci, hlook]
    have hlen : (((eraseA i r.clients).length == 0) = true) = False := by
      simp [herase]
    have hwas : ((r.hostId == some i) = true) = True := by
      simp [hhost]
    simp only [hlen, hwas, if_false, if_true, herase]
    have hsetA : setA h1 (⟨hc1.ws, hc1.name, true⟩ : ServerJs.SClient) ((h1, hc1) :: t1) =
        (h1, (⟨hc1.ws, hc1.name, true⟩ : ServerJs.SClient)) :: t1 := by
      simp [setA]
    simp only [hsetA, setA_setA]
    refine ⟨lookupA_setA_self _ _ _, ?_⟩
    intro q hq hqopen
    refine List.mem_append.mpr (Or.inr ?_)
    exact ServerJs.mem_broadcastToRoom _ rc _ (lookupA_setA_self _ _ _) hq hqopen

/-- A concrete run used to witness C1: two peers join room A. -/
def c1evs : List ServerJs.SEvent :=
  [.connect, .join 0 "A" "x", .connect, .join 2 "A" "y"]

/-- The state after c1evs. -/
def c1s : ServerJs.SState := ServerJs.run ServerJs.initState c1evs

/-- Room A of c1s. -/
def c1room : ServerJs.SRoom :=
  ⟨[(1, ⟨0, "x", true⟩), (3, ⟨2, "y", false⟩)], false, some 1⟩

theorem C1_host_member_and_succession_witness :
    (∃ h, (("A", c1room) : String × ServerJs.SRoom).2.hostId = some h ∧
      (lookupA h (("A", c1room) : String × ServerJs.SRoom).2.clients).isSome = true)
    ∧ (∃ r', lookupA "A" (ServerJs.step c1s (.join 2 "A" "z")).1.rooms = some r' ∧
        r'.clients = c1room.clients ++
          [(c1s.fresh, ⟨2, if "z" = "" then "Misafir" else "z", c1room.clients.length == 0⟩)])
    ∧ (lookupA "A" (ServerJs.step c1s (.close 0)).1.rooms =
        some ⟨[(3, ⟨2, "y", true⟩)], c1room.locked, some 3⟩ ∧
      ∀ q ∈ [((3 : Nat), (⟨2, "y", true⟩ : ServerJs.SClient))],
        ServerJs.connOpen (ServerJs.step c1s (.close 0)).1 q.2.ws = true →
        (q.2.ws, ServerJs.SMsg.hostChangedMsg (some 3)) ∈ (ServerJs.step c1s (.close 0)).2) := by
  refine ⟨?_, ?_, ?_⟩
  · exact C1_host_member_and_succession.1 c1s ⟨c1evs, rfl⟩ ("A", c1room) (by decide) (by decide)
  · exact C1_host_member_and_succession.2.1 c1s 2 ⟨true, some 3, some "A", "y"⟩ "A" "z" c1room
      (by decide) (by decide) (by decide) (by decide) (by decide) (by decide) (by decide)
  · exact C1_host_member_and_succession.2.2 c1s 0 ⟨true, some 1, some "A", "x"⟩ "A" 1 c1room
      3 ⟨2, "y", false⟩ [] (by decide) (by decide) (by decide) (by decide) (by decide)
      (by decide) (by decide)

/-- Claim C2: in src/server.js a reachable registry never holds a room
with zero clients; a close that removes the last member deletes the room
within the same atomic step (so the state any next event sees has the
room absent); a join to an absent room code creates a brand-new room
with locked = false and the joiner as sole member and host; and in
part_004 a room created by getRoom for an unknown roomId has an empty
message history and no peers, while a disconnect that empties a room
deletes it from the registry. -/
theorem C2_room_reclamation_and_fresh_rejoin :
    (∀ s, ServerJs.Reachable s → ∀ p ∈ s.rooms, p.2.clients ≠ [])
    ∧ (∀ s cid c rc i r, ServerJs.RoomsNodup s →
        lookupA cid s.conns = some c → c.isOpen = true →
        c.clientId = some i → c.currentRoom = some rc →
        lookupA rc s.rooms = some r → eraseA i r.clients = [] →
        lookupA rc (ServerJs.step s (.close cid)).1.rooms = none)
    ∧ (∀ s cid c rc nm, lookupA cid s.conns = some c → c.isOpen = true → rc ≠ "" →
        lookupA rc s.rooms = none →
        lookupA rc (ServerJs.step s (.join cid rc nm)).1.rooms =
          some ⟨[(s.fresh, ⟨cid, if nm = "" then "Misafir" else nm, true⟩)], false,
            some s.fresh⟩)
    ∧ (∀ rooms rid, lookupA rid rooms = none →
        (PartFour.getRoom rooms rid).1.messages = [] ∧ (PartFour.getRoom rooms rid).1.peers = [])
    ∧ (∀ rooms rid pid r, (rooms.map Prod.fst).Nodup →
        lookupA rid rooms = some r → eraseA pid r.peers = [] →
        lookupA rid (PartFour.disconnectRegistry rooms rid pid) = none) := by
  refine ⟨?_, ?_, ?_, ?_, ?_⟩
  · intro s hs p hp
    exact ((ServerJs.reachable_inv hs) p hp).1
  · intro s cid c rc i r hnodup hconn hopen hci hcr hlook herase
    rw [show ServerJs.step s (.close cid) = ServerJs.handleClose s cid c from
      ServerJs.onOpenConn_eq s cid c _ hconn hopen]
    simp only [ServerJs.handleClose, hcr, hci, hlook]
    have hlen : (((eraseA i r.clients).length == 0) = true) = True := by
      simp [herase]
    simp only [hlen, if_true]
    rw [eraseA_setA]
    exact lookupA_eraseA_self rc hnodup
  · intro s cid c rc nm hconn hopen hrc hlook
    rw [show ServerJs.step s (.join cid rc nm) = ServerJs.handleJoin s cid c rc nm from
      ServerJs.onOpenConn_eq s cid c _ hconn hopen]
    simp only [ServerJs.handleJoin, if_neg hrc, hlook]
    simp only [ServerJs.joinResolved]
    rw [if_neg (by decide), if_neg (by decide)]
    rw [setA_setA]
    exact lookupA_setA_self _ _ _
  · intro rooms rid hlook
    simp [PartFour.getRoom, hlook]
  · intro rooms rid pid r hnodup hlook herase
    simp only [PartFour.disconnectRegistry, hlook]
    have hlen : ((eraseA pid r.peers).length == 0) = true := by
      simp [herase]
    rw [if_pos hlen]
    exact lookupA_eraseA_self rid hnodup

/-- A concrete run used to witness C2: one peer joins room A. -/
def c2evs : List ServerJs.SEvent := [.connect, .join 0 "A" "x"]

/-- The state after c2evs. -/
def c2s : ServerJs.SState := ServerJs.run ServerJs.initState c2evs

theorem C2_room_reclamation_and_fresh_rejoin_witness :
    (("A", (⟨[(1, ⟨0, "x", true⟩)], false, some 1⟩ : ServerJs.SRoom)) ∈ c2s.rooms →
      (⟨[(1, ⟨0, "x", true⟩)], false, some 1⟩ : ServerJs.SRoom).clients ≠ [])
    ∧ lookupA "A" (ServerJs.step c2s (.close 0)).1.rooms = none
    ∧ lookupA "B" (ServerJs.step c2s (.join 0 "B" "w")).1.rooms =
        some ⟨[(c2s.fresh, ⟨0, if "w" = "" then "Misafir" else "w", true⟩)], false,
          some c2s.fresh⟩
    ∧ ((PartFour.getRoom [] "r1").1.messages = [] ∧ (PartFour.getRoom [] "r1").1.peers = [])
    ∧ lookupA "r1" (PartFour.disconnectRegistry
        [("r1", ⟨[(5, ⟨7, "chat"⟩)], "chat", []⟩)] "r1" 5) = none := by
  refine ⟨?_, ?_, ?_, ?_, ?_⟩
  · exact fun hmem =>
      C2_room_reclamation_and_fresh_rejoin.1 c2s ⟨c2evs, rfl⟩ _ hmem
  · exact C2_room_reclamation_and_fresh_rejoin.2.1 c2s 0 ⟨true, some 1, some "A", "x"⟩ "A" 1
      ⟨[(1, ⟨0, "x", true⟩)], false, some 1⟩ (by decide) (by decide) (by decide) (by decide)
      (by decide) (by decide) (by decide)
  · exact C2_room_reclamation_and_fresh_rejoin.2.2.1 c2s 0 ⟨true, some 1, some "A", "x"⟩ "B" "w"
      (by decide) (by decide) (by decide) (by decide)
  · exact C2_room_reclamation_and_fresh_rejoin.2.2.2.1 [] "r1" (by decide)
  · exact C2_room_reclamation_and_fresh_rejoin.2.2.2.2
      [("r1", ⟨[(5, ⟨7, "chat"⟩)], "chat", []⟩)] "r1" 5 ⟨[(5, ⟨7, "chat"⟩)], "chat", []⟩
      (by decide) (by decide) (by decide)

/-- Claim C3: in src/server.js a join produces the locked rejection
exactly when the room already exists, is locked and has at least one
member (locked is checked before full, so this holds even for full
rooms); the rejection leaves the registry — in particular the room's
membership — unchanged; a reachable registry has no empty room, so a
locked-but-empty room can only be an absent one; and a join to an absent
room code succeeds, recreating the room fresh with locked = false and
the joiner as host. -/
theorem C3_room_locked_rejection_iff :
    (∀ s cid c rc nm, lookupA cid s.conns = some c → c.isOpen = true → rc ≠ "" →
      (((ServerJs.step s (.join cid rc nm)).2 = [(cid, ServerJs.SMsg.lockedMsg)]) ↔
        ∃ r, lookupA rc s.rooms = some r ∧ r.locked = true ∧ r.clients.length > 0))
    ∧ (∀ s cid c rc nm r, lookupA cid s.conns = some c → c.isOpen = true → rc ≠ "" →
        lookupA rc s.rooms = some r → r.locked = true → r.clients.length > 0 →
        (ServerJs.step s (.join cid rc nm)).1.rooms = s.rooms)
    ∧ (∀ s, ServerJs.Reachable s → ∀ p ∈ s.rooms, p.2.clients ≠ [])
    ∧ (∀ s cid c rc nm, lookupA cid s.conns = some c → c.isOpen = true → rc ≠ "" →
        lookupA rc s.rooms = none →
        lookupA rc (ServerJs.step s (.join cid rc nm)).1.rooms =
          some ⟨[(s.fresh, ⟨cid, if nm = "" then "Misafir" else nm, true⟩)], false,
            some s.fresh⟩) := by
  refine ⟨?_, ?_, ?_, ?_⟩
  · intro s cid c rc nm hconn hopen hrc
    rw [show ServerJs.step s (.join cid rc nm) = ServerJs.handleJoin s cid c rc nm from
      ServerJs.onOpenConn_eq s cid c _ hconn hopen]
    simp only [ServerJs.handleJoin, if_neg hrc]
    cases hlook : lookupA rc s.rooms with
    | some r =>
      by_cases hcond : r.locked = true ∧ r.clients.length > 0
      · simp only [ServerJs.joinResolved, if_pos hcond]
        exact ⟨fun _ => ⟨r, rfl, hcond.1, hcond.2⟩, fun _ => by simp⟩
      · by_cases hfull : r.clients.length ≥ ServerJs.MAX_ROOM_SIZE
        · simp only [ServerJs.joinResolved, if_neg hcond, if_pos hfull]
          constructor
          · intro hcontra
            simp at hcontra
          · rintro ⟨r', hr', hl', hn'⟩
            injection hr' with hrr
            subst hrr
            exact absurd ⟨hl', hn'⟩ hcond
        · simp only [ServerJs.joinResolved, if_neg hcond, if_neg hfull]
          constructor
          · intro hcontra
            simp at hcontra
          · rintro ⟨r', hr', hl', hn'⟩
            injection hr' with hrr
            subst hrr
            exact absurd ⟨hl', hn'⟩ hcond
    | none =>
      simp only [ServerJs.joinResolved]
      rw [if_neg (by decide), if_neg (by decide)]
      constructor
      · intro hcontra
        simp at hcontra
      · rintro ⟨r', hr', _, _⟩
        simp at hr'
  · intro s cid c rc nm r hconn hopen hrc hlook hl hn
    rw [show ServerJs.step s (.join cid rc nm) = ServerJs.handleJoin s cid c rc nm from
      ServerJs.onOpenConn_eq s cid c _ hconn hopen]
    simp only [ServerJs.handleJoin, if_neg hrc, hlook]
    simp only [ServerJs.joinResolved, if_pos (And.intro hl hn)]
  · intro s hs p hp
    exact ((ServerJs.reachable_inv hs) p hp).1
  · intro s cid c rc nm hconn hopen hrc hlook
    rw [show ServerJs.step s (.join cid rc nm) = ServerJs.handleJoin s cid c rc nm from
      ServerJs.onOpenConn_eq s cid c _ hconn hopen]
    simp only [ServerJs.handleJoin, if_neg hrc, hlook]
    simp only [ServerJs.joinResolved]
    rw [if_neg (by decide), if_neg (by decide)]
    rw [setA_setA]
    exact lookupA_setA_self _ _ _

/-- A concrete run used to witness C3: a host joins room A and locks it;
a fresh connection then attempts to join. -/
def c3evs : List ServerJs.SEvent :=
  [.connect, .join 0 "A" "x", .control 0 "A" "lock-room" true none, .connect]

/-- The state after c3evs. -/
def c3s : ServerJs.SState := ServerJs.run ServerJs.initState c3evs

theorem C3_room_locked_rejection_iff_witness :
    (((ServerJs.step c3s (.join 2 "A" "z")).2 = [(2, ServerJs.SMsg.lockedMsg)]) ↔
      ∃ r, lookupA "A" c3s.rooms = some r ∧ r.locked = true ∧ r.clients.length > 0)
    ∧ (ServerJs.step c3s (.join 2 "A" "z")).1.rooms = c3s.rooms
    ∧ (("A", (⟨[(1, ⟨0, "x", true⟩)], true, some 1⟩ : ServerJs.SRoom)) ∈ c3s.rooms →
        (⟨[(1, ⟨0, "x", true⟩)], true, some 1⟩ : ServerJs.SRoom).clients ≠ [])
    ∧ lookupA "B" (ServerJs.step c3s (.join 2 "B" "z")).1.rooms =
        some ⟨[(c3s.fresh, ⟨2, if "z" = "" then "Misafir" else "z", true⟩)], false,
          some c3s.fresh⟩ := by
  refine ⟨?_, ?_, ?_, ?_⟩
  · exact C3_room_locked_rejection_iff.1 c3s 2 ⟨true, none, none, "Misafir"⟩ "A" "z"
      (by decide) (by decide) (by decide)
  · exact C3_room_locked_rejection_iff.2.1 c3s 2 ⟨true, none, none, "Misafir"⟩ "A" "z"
      ⟨[(1, ⟨0, "x", true⟩)], true, some 1⟩ (by decide) (by decide) (by decide) (by decide)
      (by decide) (by decide)
  · exact fun hmem => C3_room_locked_rejection_iff.2.2.1 c3s ⟨c3evs, rfl⟩ _ hmem
  · exact C3_room_locked_rejection_iff.2.2.2 c3s 2 ⟨true, none, none, "Misafir"⟩ "B" "z"
      (by decide) (by decide) (by decide) (by decide)

/-- Event chunks building a full (12-member) room A in src/server.js,
used for C4. -/
def c4evsA : List ServerJs.SEvent := [.connect, .join 0 "A" "u0", .connect, .join 2 "A" "u1", .connect, .join 4 "A" "u2"]
def c4evsB : List ServerJs.SEvent := [.connect, .join 6 "A" "u3", .connect, .join 8 "A" "u4", .connect, .join 10 "A" "u5"]
def c4evsC : List ServerJs.SEvent := [.connect, .join 12 "A" "u6", .connect, .join 14 "A" "u7", .connect, .join 16 "A" "u8"]
def c4evsD : List ServerJs.SEvent := [.connect, .join 18 "A" "u9", .connect, .join 20 "A" "u10", .connect, .join 22 "A" "u11"]

/-- Host locks the full room; one more connection arrives. -/
def c4evsE : List ServerJs.SEvent := [.control 0 "A" "lock-room" true none, .connect]

/-- State after c4evsA. -/
def c4litA : ServerJs.SState :=
  ⟨[("A", ⟨[(1, ⟨0, "u0", true⟩), (3, ⟨2, "u1", false⟩), (5, ⟨4, "u2", false⟩)], false, some 1⟩)],
   [(0, ⟨true, some 1, some "A", "u0"⟩), (2, ⟨true, some 3, some "A", "u1"⟩), (4, ⟨true, some 5, some "A", "u2"⟩)], 6⟩

/-- State after c4evsA ++ c4evsB. -/
def c4litB : ServerJs.SState :=
  ⟨[("A", ⟨[(1, ⟨0, "u0", true⟩), (3, ⟨2, "u1", false⟩), (5, ⟨4, "u2", false⟩), (7, ⟨6, "u3", false⟩), (9, ⟨8, "u4", false⟩), (11, ⟨10, "u5", false⟩)], false, some 1⟩)],
   [(0, ⟨true, some 1, some "A", "u0"⟩), (2, ⟨true, some 3, some "A", "u1"⟩), (4, ⟨true, some 5, some "A", "u2"⟩), (6, ⟨true, some 7, some "A", "u3"⟩), (8, ⟨true, some 9, some "A", "u4"⟩), (10, ⟨true, some 11, some "A", "u5"⟩)], 12⟩

/-- State after c4evsA ++ c4evsB ++ c4evsC. -/
def c4litC : ServerJs.SState :=
  ⟨[("A", ⟨[(1, ⟨0, "u0", true⟩), (3, ⟨2, "u1", false⟩), (5, ⟨4, "u2", false⟩), (7, ⟨6, "u3", false⟩), (9, ⟨8, "u4", false⟩), (11, ⟨10, "u5", false⟩), (13, ⟨12, "u6", false⟩), (15, ⟨14, "u7", false⟩), (17, ⟨16, "u8", false⟩)], false, some 1⟩)],
   [(0, ⟨true, some 1, some "A", "u0"⟩), (2, ⟨true, some 3, some "A", "u1"⟩), (4, ⟨true, some 5, some "A", "u2"⟩), (6, ⟨true, some 7, some "A", "u3"⟩), (8, ⟨true, some 9, some "A", "u4"⟩), (10, ⟨true, some 11, some "A", "u5"⟩), (12, ⟨true, some 13, some "A", "u6"⟩), (14, ⟨true, some 15, some "A", "u7"⟩), (16, ⟨true, some 17, some "A", "u8"⟩)], 18⟩

/-- State after the twelve joins: a full, unlocked room. -/
def c4litD : ServerJs.SState :=
  ⟨[("A", ⟨[(1, ⟨0, "u0", true⟩), (3, ⟨2, "u1", false⟩), (5, ⟨4, "u2", false⟩), (7, ⟨6, "u3", false⟩), (9, ⟨8, "u4", false⟩), (11, ⟨10, "u5", false⟩), (13, ⟨12, "u6", false⟩), (15, ⟨14, "u7", false⟩), (17, ⟨16, "u8", false⟩), (19, ⟨18, "u9", false⟩), (21, ⟨20, "u10", false⟩), (23, ⟨22, "u11", false⟩)], false, some 1⟩)],
   [(0, ⟨true, some 1, some "A", "u0"⟩), (2, ⟨true, some 3, some "A", "u1"⟩), (4, ⟨true, some 5, some "A", "u2"⟩), (6, ⟨true, some 7, some "A", "u3"⟩), (8, ⟨true, some 9, some "A", "u4"⟩), (10, ⟨true, some 11, some "A", "u5"⟩), (12, ⟨true, some 13, some "A", "u6"⟩), (14, ⟨true, some 15, some "A", "u7"⟩), (16, ⟨true, some 17, some "A", "u8"⟩), (18, ⟨true, some 19, some "A", "u9"⟩), (20, ⟨true, some 21, some "A", "u10"⟩), (22, ⟨true, some 23, some "A", "u11"⟩)], 24⟩

/-- The full room, locked, with a fresh pending connection 24. -/
def c4full : ServerJs.SState :=
  ⟨[("A", ⟨[(1, ⟨0, "u0", true⟩), (3, ⟨2, "u1", false⟩), (5, ⟨4, "u2", false⟩), (7, ⟨6, "u3", false⟩), (9, ⟨8, "u4", false⟩), (11, ⟨10, "u5", false⟩), (13, ⟨12, "u6", false⟩), (15, ⟨14, "u7", false⟩), (17, ⟨16, "u8", false⟩), (19, ⟨18, "u9", false⟩), (21, ⟨20, "u10", false⟩), (23, ⟨22, "u11", false⟩)], true, some 1⟩)],
   [(0, ⟨true, some 1, some "A", "u0"⟩), (2, ⟨true, some 3, some "A", "u1"⟩), (4, ⟨true, some 5, some "A", "u2"⟩), (6, ⟨true, some 7, some "A", "u3"⟩), (8, ⟨true, some 9, some "A", "u4"⟩), (10, ⟨true, some 11, some "A", "u5"⟩), (12, ⟨true, some 13, some "A", "u6"⟩), (14, ⟨true, some 15, some "A", "u7"⟩), (16, ⟨true, some 17, some "A", "u8"⟩), (18, ⟨true, some 19, some "A", "u9"⟩), (20, ⟨true, some 21, some "A", "u10"⟩), (22, ⟨true, some 23, some "A", "u11"⟩), (24, ⟨true, none, none, "Misafir"⟩)], 25⟩

theorem c4_runA : ServerJs.run ServerJs.initState c4evsA = c4litA := by decide

theorem c4_runB : ServerJs.run c4litA c4evsB = c4litB := by decide

theorem c4_runC : ServerJs.run c4litB c4evsC = c4litC := by decide

theorem c4_runD : ServerJs.run c4litC c4evsD = c4litD := by decide

theorem c4_runE : ServerJs.run c4litD c4evsE = c4full := by decide

theorem c4_reach : ServerJs.Reachable c4full := by
  refine ⟨c4evsA ++ (c4evsB ++ (c4evsC ++ (c4evsD ++ c4evsE))), ?_⟩
  rw [ServerJs.run_append, c4_runA, ServerJs.run_append, c4_runB, ServerJs.run_append,
    c4_runC, ServerJs.run_append, c4_runD, c4_runE]

/-- Counterexample to claim C4 as stated: room A of the reachable state
c4full holds exactly MAX_ROOM_SIZE = 12 peers, but because it is also
locked and the lock check of handleJoin runs before the capacity check,
the next join is rejected with the locked response, not the full
response carrying the capacity. -/
theorem C4_counterexample_locked_full_precedence :
    (∃ r, lookupA "A" c4full.rooms = some r ∧
      r.clients.length = ServerJs.MAX_ROOM_SIZE ∧ r.locked = true) ∧
    ServerJs.Reachable c4full ∧
    (ServerJs.step c4full (.join 24 "A" "w")).2 = [(24, ServerJs.SMsg.lockedMsg)] ∧
    (ServerJs.step c4full (.join 24 "A" "w")).2 ≠
      [(24, ServerJs.SMsg.fullMsg ServerJs.MAX_ROOM_SIZE)] := by
  refine ⟨⟨⟨[(1, ⟨0, "u0", true⟩), (3, ⟨2, "u1", false⟩), (5, ⟨4, "u2", false⟩),
      (7, ⟨6, "u3", false⟩), (9, ⟨8, "u4", false⟩), (11, ⟨10, "u5", false⟩),
      (13, ⟨12, "u6", false⟩), (15, ⟨14, "u7", false⟩), (17, ⟨16, "u8", false⟩),
      (19, ⟨18, "u9", false⟩), (21, ⟨20, "u10", false⟩), (23, ⟨22, "u11", false⟩)],
      true, some 1⟩, by decide, by decide, by decide⟩, c4_reach, by decide, by decide⟩

/-- Claim C4 as amended: in src/server.js a join to a room already
holding MAX_ROOM_SIZE = 12 peers is rejected with the full response
carrying the capacity, and the registry (hence the room's membership) is
unchanged — provided the room is not also locked, in which case the
locked rejection takes precedence. -/
theorem C4_full_rejection_amended :
    ∀ s cid c rc nm r, lookupA cid s.conns = some c → c.isOpen = true → rc ≠ "" →
      lookupA rc s.rooms = some r → r.locked = false →
      r.clients.length ≥ ServerJs.MAX_ROOM_SIZE →
      (ServerJs.step s (.join cid rc nm)).2 =
        [(cid, ServerJs.SMsg.fullMsg ServerJs.MAX_ROOM_SIZE)] ∧
      (ServerJs.step s (.join cid rc nm)).1.rooms = s.rooms := by
  intro s cid c rc nm r hconn hopen hrc hlook hlocked hfull
  rw [show ServerJs.step s (.join cid rc nm) = ServerJs.handleJoin s cid c rc nm from
    ServerJs.onOpenConn_eq s cid c _ hconn hopen]
  simp only [ServerJs.handleJoin, if_neg hrc, hlook]
  simp only [ServerJs.joinResolved]
  rw [if_neg (by simp [hlocked]), if_pos hfull]
  exact ⟨rfl, rfl⟩

theorem C4_full_rejection_amended_witness :
    (ServerJs.step c4litD (.join 0 "A" "w")).2 =
      [(0, ServerJs.SMsg.fullMsg ServerJs.MAX_ROOM_SIZE)] ∧
    (ServerJs.step c4litD (.join 0 "A" "w")).1.rooms = c4litD.rooms :=
  C4_full_rejection_amended c4litD 0 ⟨true, some 1, some "A", "u0"⟩ "A" "w"
    ⟨[(1, ⟨0, "u0", true⟩), (3, ⟨2, "u1", false⟩), (5, ⟨4, "u2", false⟩),
      (7, ⟨6, "u3", false⟩), (9, ⟨8, "u4", false⟩), (11, ⟨10, "u5", false⟩),
      (13, ⟨12, "u6", false⟩), (15, ⟨14, "u7", false⟩), (17, ⟨16, "u8", false⟩),
      (19, ⟨18, "u9", false⟩), (21, ⟨20, "u10", false⟩), (23, ⟨22, "u11", false⟩)],
      false, some 1⟩
    (by decide) (by decide) (by decide) (by decide) (by decide) (by decide)

/-- A concrete run used for C5: one connection joins room A and then
sends a second join for the same room. -/
def c5evs : List ServerJs.SEvent := [.connect, .join 0 "A" "a"]

/-- The state after c5evs. -/
def c5s : ServerJs.SState := ServerJs.run ServerJs.initState c5evs

/-- Counterexample to claim C5 as stated: in src/server.js there is no
duplicate-join check at all.  Connection 0 is already the sole member of
room A (as clientId 1); its second join is not rejected — it is answered
with a fresh joined acknowledgement under a brand-new clientId 2 — and
the room's membership gains a second entry whose ws field is the very
same connection 0, the old entry remaining behind. -/
theorem C5_counterexample_no_duplicate_check :
    ((lookupA 0 c5s.conns).map (fun c => c.currentRoom) = some (some "A")) ∧
    (lookupA "A" c5s.rooms).map (fun r => r.clients.map (fun q => q.2.ws)) = some [0] ∧
    (ServerJs.step c5s (.join 0 "A" "b")).2.head? =
      some (0, ServerJs.SMsg.joinedMsg 2 (some 1) false false [(1, "a", true)]) ∧
    lookupA "A" (ServerJs.step c5s (.join 0 "A" "b")).1.rooms =
      some ⟨[(1, ⟨0, "a", true⟩), (2, ⟨0, "b", false⟩)], false, some 1⟩ := by
  refine ⟨by decide, by decide, by decide, by decide⟩

/-- Claim C5 as amended: in the socket.io variant (part_001), a join-room
from a connection that is already a member of the target room — when the
rate limiter admits the event, validation passes and the room is below
capacity — is rejected with the already-in-this-room error sent to the
sender only, and the room (its membership in particular) is unchanged.
src/server.js has no such check (see the counterexample): a second join
allocates a fresh clientId and inserts a second peer entry for the same
connection. -/
theorem C5_duplicate_join_amended :
    ∀ sanitize s sid now rc0 un0 room,
      (PartOne.checkSocketRateLimit s.rate sid now).1 = true →
      PartOne.validateJoinRoom sanitize rc0 un0 = [] →
      lookupA (jsToUpper rc0) s.rooms = some room →
      room.users.length < room.maxUsers →
      (∃ u, room.users.find? (fun u => u.id == sid) = some u) →
      (PartOne.joinRoom sanitize s sid now rc0 un0).2 =
        [PartOne.P1Out.toSender (.errorMsg "Zaten bu odadasınız!")] ∧
      (PartOne.joinRoom sanitize s sid now rc0 un0).1.rooms = s.rooms := by
  intro sanitize s sid now rc0 un0 room hrate hvalid hlook hcap hdup
  rcases hdup with ⟨u, hu⟩
  simp only [PartOne.joinRoom]
  rcases hr : PartOne.checkSocketRateLimit s.rate sid now with ⟨ok, rate1⟩
  rw [hr] at hrate
  simp only at hrate
  simp only [hrate]
  rw [if_neg (by simp)]
  simp only [hvalid, hlook]
  rw [if_neg (Nat.not_le.mpr hcap)]
  simp only [hu]
  exact ⟨trivial, trivial⟩

theorem C5_duplicate_join_amended_witness :
    (PartOne.joinRoom (fun t => t)
        ⟨[("ROOM01", ⟨[⟨7, "bob", true, true, false⟩], 10, ⟨0, 1⟩⟩)], [(7, some "ROOM01")], []⟩
        7 0 "ROOM01" "bob").2 =
      [PartOne.P1Out.toSender (.errorMsg "Zaten bu odadasınız!")] ∧
    (PartOne.joinRoom (fun t => t)
        ⟨[("ROOM01", ⟨[⟨7, "bob", true, true, false⟩], 10, ⟨0, 1⟩⟩)], [(7, some "ROOM01")], []⟩
        7 0 "ROOM01" "bob").1.rooms =
      [("ROOM01", ⟨[⟨7, "bob", true, true, false⟩], 10, ⟨0, 1⟩⟩)] :=
  C5_duplicate_join_amended (fun t => t)
    ⟨[("ROOM01", ⟨[⟨7, "bob", true, true, false⟩], 10, ⟨0, 1⟩⟩)], [(7, some "ROOM01")], []⟩
    7 0 "ROOM01" "bob" ⟨[⟨7, "bob", true, true, false⟩], 10, ⟨0, 1⟩⟩
    (by decide) (by decide) (by decide) (by decide) ⟨⟨7, "bob", true, true, false⟩, by decide⟩

namespace PartZero

/-- Every room history of part_000 stays within the 100-message bound. -/
def HistOk (s : P0State) : Prop := ∀ p ∈ s.roomMessages, p.2.length ≤ 100

instance (s : P0State) : Decidable (HistOk s) := by
  unfold HistOk
  infer_instance

theorem histOk_step (s : P0State) (e : P0Event) (h : HistOk s) : HistOk (step s e).1 := by
  cases e with
  | joinRoom sid room user =>
    simp only [step, joinRoom]
    split
    · exact h
    · exact h
  | chatMessage sid room user text =>
    simp only [step, chatMessage]
    split
    · exact h
    · intro p hp
      simp only at hp
      rcases mem_setA hp with hp' | hp'
      · exact h p hp'
      · subst hp'
        have hold : ((lookupA room s.roomMessages).getD []).length ≤ 100 := by
          cases hlook : lookupA room s.roomMessages with
          | none => simp
          | some buf =>
            simpa using h _ (mem_of_lookupA hlook)
        simp only
        split
        · rename_i hgt
          simp only [List.length_drop, List.length_append, List.length_cons,
            List.length_nil]
          omega
        · rename_i hle
          simp at hle
          simpa using hle
  | disconnect sid =>
    simp only [step, disconnect]
    split
    · exact h
    · exact h

theorem histOk_run (s : P0State) (evs : List P0Event) (h : HistOk s) : HistOk (run s evs) := by
  induction evs generalizing s with
  | nil => exact h
  | cons e t ih => exact ih _ (histOk_step s e h)

theorem reachable_histOk {s : P0State} (h : Reachable s) : HistOk s := by
  rcases h with ⟨evs, rfl⟩
  exact histOk_run _ _ (by intro p hp; simp [initState] at hp)

end PartZero

/-- A part_004 registry whose room r already holds a stored message and
one peer. -/
def c6p4rooms : List (String × PartFour.P4Room) :=
  [("r", ⟨[(1, ⟨0, "chat"⟩)], "chat", [⟨1, "hello"⟩]⟩)]

/-- Counterexample to claim C6 as stated: in part_004 (a cited source of
the claim) the stored message buffer is never replayed to a newly
joining peer.  Room r holds a non-empty history, yet the join of peer 2
emits only peer-joined to the others and room-state — carrying the
room's mode and peer-id list — to the joiner: the only payload the new
peer receives is that room-state, and no emission carries the buffer. -/
theorem C6_counterexample_no_replay_part_004 :
    (lookupA "r" c6p4rooms).map (fun room => room.messages) = some [⟨1, "hello"⟩] ∧
    (PartFour.joinRoom c6p4rooms none "r" 2 5 "chat").2.2 =
      [PartFour.P4Out.toRoomExcept "r" 5 (.peerJoinedMsg 2 "chat"),
       PartFour.P4Out.toSocket 5 (.roomStateMsg "r" "chat" [1] 2)] ∧
    (PartFour.joinRoom c6p4rooms none "r" 2 5 "chat").2.2.filterMap
        (fun o => match o with
          | PartFour.P4Out.toSocket c m => if c = 5 then some m else none
          | _ => none) =
      [PartFour.P4OutMsg.roomStateMsg "r" "chat" [1] 2] := by
  refine ⟨by decide, by decide, by decide⟩

/-- Claim C6 as amended: in part_000 every reachable room history holds
at most 100 messages, appending to a history of exactly 100 evicts
precisely the oldest entry keeping the remaining order (the new message
last), and every joinRoom sends the joining socket the room's current
history; part_004's chat-message buffer obeys the same bound and
eviction, but part_004 does not replay it: every emission of its
join-room handler is either the peer-joined notification to the others
or the room-state payload to the joiner, which carries only the room's
mode and peer-id list, never the stored messages. -/
theorem C6_recent_messages_bound :
    (∀ s, PartZero.Reachable s → ∀ p ∈ s.roomMessages, p.2.length ≤ 100)
    ∧ (∀ s sid room user text buf, room ≠ "" → text ≠ "" →
        lookupA room s.roomMessages = some buf → buf.length = 100 →
        lookupA room (PartZero.step s (.chatMessage sid room user text)).1.roomMessages =
          some (buf.drop 1 ++ [⟨user, text, sid⟩]))
    ∧ (∀ s sid room user, room ≠ "" →
        PartZero.P0Out.toSocket sid
          (.roomHistoryMsg room (PartZero.getRoomHistory s room)) ∈
          (PartZero.step s (.joinRoom sid room user)).2)
    ∧ (∀ room m, (room : PartFour.P4Room).messages.length ≤ 100 →
        (PartFour.chatStore room m).messages.length ≤ 100)
    ∧ (∀ room m, (room : PartFour.P4Room).messages.length = 100 →
        (PartFour.chatStore room m).messages = room.messages.drop 1 ++ [m])
    ∧ (∀ rooms cur roomId peerId conn mode out,
        out ∈ (PartFour.joinRoom rooms cur roomId peerId conn mode).2.2 →
        out = PartFour.P4Out.toRoomExcept roomId conn (.peerJoinedMsg peerId mode) ∨
        ∃ md ps, out = PartFour.P4Out.toSocket conn (.roomStateMsg roomId md ps peerId)) := by
  refine ⟨?_, ?_, ?_, ?_, ?_, ?_⟩
  · intro s hs p hp
    exact PartZero.reachable_histOk hs p hp
  · intro s sid room user text buf hroom htext hlook hlen
    simp only [PartZero.step, PartZero.chatMessage]
    rw [if_neg (by simp [hroom, htext])]
    simp only [hlook, Option.getD_some]
    have hgt : (buf ++ [(⟨user, text, sid⟩ : PartZero.P0Chat)]).length > 100 := by
      simp [hlen]
    rw [if_pos hgt]
    have hdrop : (buf ++ [(⟨user, text, sid⟩ : PartZero.P0Chat)]).drop 1 =
        buf.drop 1 ++ [⟨user, text, sid⟩] := by
      cases buf with
      | nil => simp at hlen
      | cons b t => simp
    rw [hdrop]
    exact lookupA_setA_self _ _ _
  · intro s sid room user hroom
    simp only [PartZero.step, PartZero.joinRoom]
    rw [if_neg hroom]
    refine List.mem_append.mpr (Or.inr ?_)
    simp [PartZero.getRoomHistory]
  · intro room m hlen
    simp only [PartFour.chatStore]
    split
    · simp only [List.length_drop, List.length_append, List.length_cons,
        List.length_nil]
      omega
    · rename_i hle
      simp at hle
      simpa using hle
  · intro room m hlen
    simp only [PartFour.chatStore]
    rw [if_pos (by simp [hlen])]
    cases hm : room.messages with
    | nil => simp [hm] at hlen
    | cons b t => simp
  · intro rooms cur roomId peerId conn mode out hout
    simp only [PartFour.joinRoom, List.mem_cons, List.not_mem_nil, or_false] at hout
    rcases hout with hout | hout
    · exact Or.inl hout
    · exact Or.inr ⟨_, _, hout⟩

/-- A 100-message history used to witness C6. -/
def c6buf : List PartZero.P0Chat := List.replicate 100 ⟨"a", "x", 0⟩

/-- A part_000 state whose room r carries a full history. -/
def c6s : PartZero.P0State := ⟨[], [("r", c6buf)], []⟩

/-- A concrete part_000 run used to witness the reachable bound. -/
def c6evs : List PartZero.P0Event := [.chatMessage 0 "general" "alice" "hi"]

theorem C6_recent_messages_bound_witness :
    (("general", [(⟨"alice", "hi", 0⟩ : PartZero.P0Chat)]) ∈
        (PartZero.run PartZero.initState c6evs).roomMessages →
      [(⟨"alice", "hi", 0⟩ : PartZero.P0Chat)].length ≤ 100)
    ∧ lookupA "r" (PartZero.step c6s (.chatMessage 5 "r" "bob" "new")).1.roomMessages =
        some (c6buf.drop 1 ++ [⟨"bob", "new", 5⟩])
    ∧ PartZero.P0Out.toSocket 5
        (.roomHistoryMsg "r" (PartZero.getRoomHistory c6s "r")) ∈
        (PartZero.step c6s (.joinRoom 5 "r" "bob")).2
    ∧ (PartFour.chatStore ⟨[], "chat", List.replicate 100 ⟨0, "m"⟩⟩ ⟨1, "n"⟩).messages.length ≤ 100
    ∧ (PartFour.chatStore ⟨[], "chat", List.replicate 100 ⟨0, "m"⟩⟩ ⟨1, "n"⟩).messages =
        (List.replicate 100 (⟨0, "m"⟩ : PartFour.P4Msg)).drop 1 ++ [⟨1, "n"⟩]
    ∧ (PartFour.P4Out.toSocket 5 (.roomStateMsg "r" "chat" [1] 2) =
        PartFour.P4Out.toRoomExcept "r" 5 (.peerJoinedMsg 2 "chat") ∨
      ∃ md ps, PartFour.P4Out.toSocket 5 (.roomStateMsg "r" "chat" [1] 2) =
        PartFour.P4Out.toSocket 5 (.roomStateMsg "r" md ps 2)) := by
  refine ⟨?_, ?_, ?_, ?_, ?_, ?_⟩
  · exact fun hmem =>
      C6_recent_messages_bound.1 (PartZero.run PartZero.initState c6evs) ⟨c6evs, rfl⟩ _ hmem
  · exact C6_recent_messages_bound.2.1 c6s 5 "r" "bob" "new" c6buf (by decide) (by decide)
      (by decide) (by decide)
  · exact C6_recent_messages_bound.2.2.1 c6s 5 "r" "bob" (by decide)
  · exact C6_recent_messages_bound.2.2.2.1 ⟨[], "chat", List.replicate 100 ⟨0, "m"⟩⟩ ⟨1, "n"⟩
      (by decide)
  · exact C6_recent_messages_bound.2.2.2.2.1 ⟨[], "chat", List.replicate 100 ⟨0, "m"⟩⟩
      ⟨1, "n"⟩ (by decide)
  · exact C6_recent_messages_bound.2.2.2.2.2 c6p4rooms none "r" 2 5 "chat"
      (PartFour.P4Out.toSocket 5 (.roomStateMsg "r" "chat" [1] 2)) (by decide)

theorem find_beq_eq_some_of_mem {t : Nat} {l : List Nat} (h : t ∈ l) :
    l.find? (fun pid => pid == t) = some t := by
  induction l with
  | nil => simp at h
  | cons a l ih =>
    by_cases ha : a = t
    · subst ha
      simp [List.find?]
    · have ht : t ∈ l := by
        rcases List.mem_cons.mp h with h' | h'
        · exact absurd h'.symm ha
        · exact h'
      have hab : (a == t) = false := by
        simp [ha]
      simp [List.find?, hab, ih ht]

theorem find_beq_eq_none_of_not_mem {t : Nat} {l : List Nat} (h : t ∉ l) :
    l.find? (fun pid => pid == t) = none := by
  induction l with
  | nil => simp
  | cons a l ih =>
    simp at h
    have hab : (a == t) = false := by
      simp
      intro hh
      exact h.1 hh.symm
    have ht : t ∉ l := h.2
    simp [List.find?, hab, ih ht]

namespace PartTwo

theorem p2_onOpenConn_eq (s : P2State) (cid : Nat) (c : P2Conn)
    (f : P2Conn → P2State × List (Nat × P2Msg))
    (hconn : lookupA cid s.conns = some c) (hopen : c.isOpen = true) :
    onOpenConn s cid f = f c := by
  unfold onOpenConn
  simp only [hconn]
  rw [if_pos hopen]

end PartTwo

/-- A concrete run used for C7 in src/server.js: connection 0 joins room
A as clientId 1; connection 2 joins room B as clientId 3. -/
def c7evs : List ServerJs.SEvent :=
  [.connect, .join 0 "A" "u", .connect, .join 2 "B" "v"]

/-- The state after c7evs. -/
def c7s : ServerJs.SState := ServerJs.run ServerJs.initState c7evs

/-- Counterexample to claim C7 as stated: in src/server.js the relay
looks the target up in the room NAMED IN THE MESSAGE, not the sender's
room.  Connection 0's current room is A and clientId 3 is not a member
of A, so the claim requires the event to be dropped silently; instead
the payload is delivered to clientId 3's connection in room B. -/
theorem C7_counterexample_cross_room_relay :
    ((lookupA 0 c7s.conns).map (fun c => c.currentRoom) = some (some "A")) ∧
    (lookupA "A" c7s.rooms).map (fun r => lookupA 3 r.clients) = some none ∧
    (ServerJs.step c7s (.signal 0 "B" (some 3) "x")).2 =
      [(2, ServerJs.SMsg.signalMsg (some 1) "x")] := by
  refine ⟨by decide, by decide, by decide⟩

/-- Claim C7 as amended: in part_002 the signal branch resolves the
target in the sender's own room (ws.room): the relay never mutates
state, the payload is forwarded verbatim to the target's single
connection tagged with the sender's id when the target is a member of
the sender's room with an open socket, and the event is dropped silently
— no output to anyone — when the target is not a member of that room.
In src/server.js the relay instead resolves the target in the room named
in the message: it delivers whenever the NAMED room contains the target
on an open socket, regardless of the sender's own room. -/
theorem C7_signal_relay_amended :
    (∀ s cid target d, (PartTwo.step s (.signal cid target d)).1 = s)
    ∧ (∀ s cid c rc room t d, lookupA cid s.conns = some c → c.isOpen = true →
        c.room = some rc → lookupA rc s.rooms = some room →
        ((t ∈ room.peers → PartTwo.connOpen s t = true →
          (PartTwo.step s (.signal cid (some t) d)).2 = [(t, PartTwo.P2Msg.signalMsg cid d)]) ∧
         (t ∉ room.peers → (PartTwo.step s (.signal cid (some t) d)).2 = [])))
    ∧ (∀ s cid c rc t d cl room, lookupA cid s.conns = some c → c.isOpen = true →
        rc ≠ "" → d ≠ "" → lookupA rc s.rooms = some room →
        lookupA t room.clients = some cl → ServerJs.connOpen s cl.ws = true →
        (ServerJs.step s (.signal cid rc (some t) d)).2 =
          [(cl.ws, ServerJs.SMsg.signalMsg c.clientId d)]) := by
  refine ⟨?_, ?_, ?_⟩
  · intro s cid target d
    simp only [PartTwo.step, PartTwo.onOpenConn]
    split
    · split
      · rfl
      · rfl
    · rfl
  · intro s cid c rc room t d hconn hopen hroom hlook
    rw [show PartTwo.step s (.signal cid (some t) d) =
        (s, PartTwo.handleSignal s cid c (some t) d) from
      PartTwo.p2_onOpenConn_eq s cid c _ hconn hopen]
    simp only [PartTwo.handleSignal, hroom, hlook]
    constructor
    · intro hmem htopen
      rw [find_beq_eq_some_of_mem hmem]
      simp [htopen]
    · intro hmem
      rw [find_beq_eq_none_of_not_mem hmem]
  · intro s cid c rc t d cl room hconn hopen hrc hd hlook hcl htopen
    rw [show ServerJs.step s (.signal cid rc (some t) d) =
        (s, ServerJs.handleSignal s c rc (some t) d) from
      ServerJs.onOpenConn_eq s cid c _ hconn hopen]
    simp only [ServerJs.handleSignal]
    rw [if_neg (by simp [hrc, hd])]
    simp only [ServerJs.sendToClient, hlook, hcl]
    rw [if_pos htopen]

/-- A concrete part_002 run used to witness C7: two sockets join the
six-digit room 123456. -/
def c7p2evs : List PartTwo.P2Event :=
  [.connect, .join 0 "123456" "u", .connect, .join 1 "123456" "v"]

/-- The part_002 state after c7p2evs. -/
def c7p2s : PartTwo.P2State := PartTwo.run PartTwo.initState c7p2evs

theorem C7_signal_relay_amended_witness :
    (PartTwo.step c7p2s (.signal 0 (some 1) "x")).1 = c7p2s
    ∧ ((1 ∈ [0, 1] → PartTwo.connOpen c7p2s 1 = true →
        (PartTwo.step c7p2s (.signal 0 (some 1) "x")).2 =
          [(1, PartTwo.P2Msg.signalMsg 0 "x")]) ∧
       (1 ∉ ([0, 1] : List Nat) →
        (PartTwo.step c7p2s (.signal 0 (some 1) "x")).2 = []))
    ∧ ((5 ∈ ([0, 1] : List Nat) → PartTwo.connOpen c7p2s 5 = true →
        (PartTwo.step c7p2s (.signal 0 (some 5) "x")).2 =
          [(5, PartTwo.P2Msg.signalMsg 0 "x")]) ∧
       (5 ∉ ([0, 1] : List Nat) →
        (PartTwo.step c7p2s (.signal 0 (some 5) "x")).2 = []))
    ∧ (ServerJs.step c7s (.signal 0 "B" (some 3) "x")).2 =
        [(2, ServerJs.SMsg.signalMsg (some 1) "x")] := by
  refine ⟨?_, ?_, ?_, ?_⟩
  · exact C7_signal_relay_amended.1 c7p2s 0 (some 1) "x"
  · exact C7_signal_relay_amended.2.1 c7p2s 0 ⟨true, some "123456", "u"⟩ "123456"
      ⟨[0, 1], 0, false⟩ 1 "x" (by decide) (by decide) (by decide) (by decide)
  · exact C7_signal_relay_amended.2.1 c7p2s 0 ⟨true, some "123456", "u"⟩ "123456"
      ⟨[0, 1], 0, false⟩ 5 "x" (by decide) (by decide) (by decide) (by decide)
  · exact C7_signal_relay_amended.2.2 c7s 0 ⟨true, some 1, some "A", "u"⟩ "B" 3 "x"
      ⟨2, "v", true⟩ ⟨[(3, ⟨2, "v", true⟩)], false, some 3⟩ (by decide) (by decide)
      (by decide) (by decide) (by decide) (by decide) (by decide)

/-- A concrete run used for C8: connection 0 joins room A as clientId 1. -/
def c8evs : List ServerJs.SEvent := [.connect, .join 0 "A" "u"]

/-- The state after c8evs. -/
def c8s : ServerJs.SState := ServerJs.run ServerJs.initState c8evs

/-- Counterexample to claim C8 as stated: in src/server.js a chat
message from a member of room A whose text is a single space — empty
after trimming — produces no output at all: no EMPTY_MESSAGE (or any)
error is sent to the sender; the message is dropped silently. -/
theorem C8_counterexample_silent_empty_drop :
    (lookupA "A" c8s.rooms).map (fun r => (lookupA 1 r.clients).isSome) = some true ∧
    (ServerJs.step c8s (.chat 0 "A" " ")).2 = [] := by
  refine ⟨by decide, by decide⟩

/-- Claim C8 as amended: in part_001 an inbound chat message is
sanitized and validated — one that is empty after sanitize+trim is
rejected with the empty-message error, one whose sanitized text exceeds
500 characters with the too-long error — and an invalid message produces
exactly one private error to the sender, is never broadcast, and leaves
the rooms (in particular any message store) unchanged.  In src/server.js
there is no such error path: an empty-after-trim text from a member is
dropped silently with no error, and longer texts are truncated to 1000
characters and broadcast rather than rejected.  In part_000 an
empty-text chat is dropped: nothing is appended to the history and
nothing is broadcast. -/
theorem C8_chat_validation_amended :
    (∀ sanitize t, t ≠ "" → (sanitize (jsTrim t)).length = 0 →
      PartOne.validateMessage sanitize (some t) = .invalid "Mesaj boş olamaz")
    ∧ (∀ sanitize t, t ≠ "" → (sanitize (jsTrim t)).length ≠ 0 →
        (sanitize (jsTrim t)).length > 500 →
        PartOne.validateMessage sanitize (some t) = .invalid "Mesaj 500 karakteri geçemez")
    ∧ (∀ sanitize s sid now msg e,
        (PartOne.checkSocketRateLimit s.rate sid now).1 = true →
        PartOne.validateMessage sanitize msg = .invalid e →
        (PartOne.sendMessage sanitize s sid now msg).2 =
          [PartOne.P1Out.toSender (.errorMsg e)] ∧
        (PartOne.sendMessage sanitize s sid now msg).1.rooms = s.rooms)
    ∧ (∀ s cid c rc txt r cl i, lookupA cid s.conns = some c → c.isOpen = true →
        rc ≠ "" → txt ≠ "" → lookupA rc s.rooms = some r → c.clientId = some i →
        lookupA i r.clients = some cl →
        (jsTake (jsTrim txt) 1000 = "" → (ServerJs.step s (.chat cid rc txt)).2 = []) ∧
        (jsTake (jsTrim txt) 1000 ≠ "" → (ServerJs.step s (.chat cid rc txt)).2 =
          ServerJs.broadcastToRoom s rc
            (ServerJs.SMsg.chatMsg (some i) cl.name (jsTake (jsTrim txt) 1000)) none))
    ∧ (∀ s sid room user,
        (PartZero.step s (.chatMessage sid room user "")).1 = s ∧
        (PartZero.step s (.chatMessage sid room user "")).2 = []) := by
  refine ⟨?_, ?_, ?_, ?_, ?_⟩
  · intro sanitize t ht hlen
    simp only [PartOne.validateMessage]
    rw [if_neg ht, if_pos hlen]
  · intro sanitize t ht hne hlong
    simp only [PartOne.validateMessage]
    rw [if_neg ht, if_neg hne, if_pos (show (sanitize (jsTrim t)).length >
      PartOne.maxMessageLength from hlong)]
  · intro sanitize s sid now msg e hrate hmsg
    simp only [PartOne.sendMessage]
    rcases hr : PartOne.checkSocketRateLimit s.rate sid now with ⟨ok, rate1⟩
    rw [hr] at hrate
    simp only at hrate
    simp only [hrate]
    rw [if_neg (by simp)]
    simp only [hmsg]
    exact ⟨trivial, trivial⟩
  · intro s cid c rc txt r cl i hconn hopen hrc htxt hlook hci hcl
    rw [show ServerJs.step s (.chat cid rc txt) = (s, ServerJs.handleChat s c rc txt) from
      ServerJs.onOpenConn_eq s cid c _ hconn hopen]
    simp only [ServerJs.handleChat]
    rw [if_neg (by simp [hrc, htxt])]
    simp only [hlook, hci, hcl]
    constructor
    · intro hempty
      rw [if_pos hempty]
    · intro hne
      rw [if_neg hne]
  · intro s sid room user
    simp only [PartZero.step, PartZero.chatMessage]
    rw [if_pos (by simp)]
    exact ⟨rfl, rfl⟩

theorem C8_chat_validation_amended_witness :
    PartOne.validateMessage (fun t => t) (some " ") = .invalid "Mesaj boş olamaz"
    ∧ PartOne.validateMessage (fun _ => String.mk (List.replicate 501 'a')) (some "x") =
        .invalid "Mesaj 500 karakteri geçemez"
    ∧ ((PartOne.sendMessage (fun t => t) ⟨[], [], []⟩ 7 0 (some " ")).2 =
        [PartOne.P1Out.toSender (.errorMsg "Mesaj boş olamaz")] ∧
       (PartOne.sendMessage (fun t => t) ⟨[], [], []⟩ 7 0 (some " ")).1.rooms = [])
    ∧ (((jsTake (jsTrim " ") 1000 = "" → (ServerJs.step c8s (.chat 0 "A" " ")).2 = []) ∧
        (jsTake (jsTrim " ") 1000 ≠ "" → (ServerJs.step c8s (.chat 0 "A" " ")).2 =
          ServerJs.broadcastToRoom c8s "A"
            (ServerJs.SMsg.chatMsg (some 1) "u" (jsTake (jsTrim " ") 1000)) none)))
    ∧ ((PartZero.step PartZero.initState (.chatMessage 0 "r" "a" "")).1 = PartZero.initState ∧
       (PartZero.step PartZero.initState (.chatMessage 0 "r" "a" "")).2 = []) := by
  refine ⟨?_, ?_, ?_, ?_, ?_⟩
  · exact C8_chat_validation_amended.1 (fun t => t) " " (by decide) (by decide)
  · exact C8_chat_validation_amended.2.1 (fun _ => String.mk (List.replicate 501 'a')) "x"
      (by decide) (by decide) (by decide)
  · exact C8_chat_validation_amended.2.2.1 (fun t => t) ⟨[], [], []⟩ 7 0 (some " ")
      "Mesaj boş olamaz" (by decide) (by decide)
  · exact C8_chat_validation_amended.2.2.2.1 c8s 0 ⟨true, some 1, some "A", "u"⟩ "A" " "
      ⟨[(1, ⟨0, "u", true⟩)], false, some 1⟩ ⟨0, "u", true⟩ 1 (by decide) (by decide)
      (by decide) (by decide) (by decide) (by decide) (by decide)
  · exact C8_chat_validation_amended.2.2.2.2 PartZero.initState 0 "r" "a"

/-- A concrete run used for C9: connection 0 joins room A as clientId 1
and is the room's only member. -/
def c9evs : List ServerJs.SEvent := [.connect, .join 0 "A" "u"]

/-- The state after c9evs. -/
def c9s : ServerJs.SState := ServerJs.run ServerJs.initState c9evs

/-- Counterexample to claim C9 as stated: in src/server.js an allowed
reaction is broadcast with no excludeClientId, so the sender receives
its own reaction.  Here the sender (connection 0, the sole member of
room A) is exactly the recipient list — the claim's "excluding the
sender" would require no delivery at all. -/
theorem C9_counterexample_reaction_echoed_to_sender :
    (lookupA "A" c9s.rooms).map (fun r => r.clients.map fun q => q.2.ws) = some [0] ∧
    (ServerJs.step c9s (.reaction 0 "A" "👍")).2 =
      [(0, ServerJs.SMsg.reactionMsg (some 1) "👍")] := by
  refine ⟨by decide, by decide⟩

/-- Claim C9 as amended: in src/server.js a reaction never changes any
room state; a reaction whose emoji is outside the fixed allow-list is
dropped silently with no output to any connection; an allowed reaction
is broadcast to every open member of the named room INCLUDING the
sender (broadcastToRoom is called without an exclusion).  In part_002
there is no allow-list at all: any non-empty emoji, truncated to its
first eight characters, is broadcast to all open members of the
sender's room, the sender included, with no state change. -/
theorem C9_reaction_amended :
    (∀ s cid rc em, (ServerJs.step s (.reaction cid rc em)).1 = s)
    ∧ (∀ s cid c rc em, lookupA cid s.conns = some c → c.isOpen = true →
        ServerJs.allowedEmojis.contains em = false →
        (ServerJs.step s (.reaction cid rc em)).2 = [])
    ∧ (∀ s cid c rc em room q, lookupA cid s.conns = some c → c.isOpen = true →
        rc ≠ "" → em ≠ "" → ServerJs.allowedEmojis.contains em = true →
        lookupA rc s.rooms = some room → q ∈ room.clients →
        ServerJs.connOpen s q.2.ws = true →
        (q.2.ws, ServerJs.SMsg.reactionMsg c.clientId em) ∈
          (ServerJs.step s (.reaction cid rc em)).2)
    ∧ (∀ s cid c rc room em, lookupA cid s.conns = some c → c.isOpen = true →
        c.room = some rc → lookupA rc s.rooms = some room → jsTake em 8 ≠ "" →
        (PartTwo.step s (.reaction cid em)).1 = s ∧
        (PartTwo.step s (.reaction cid em)).2 =
          PartTwo.broadcast s room (PartTwo.P2Msg.reactionMsg cid (jsTake em 8))) := by
  refine ⟨?_, ?_, ?_, ?_⟩
  · intro s cid rc em
    simp only [ServerJs.step, ServerJs.onOpenConn]
    split
    · split
      · rfl
      · rfl
    · rfl
  · intro s cid c rc em hconn hopen hallow
    rw [show ServerJs.step s (.reaction cid rc em) =
        (s, ServerJs.handleReaction s c rc em) from
      ServerJs.onOpenConn_eq s cid c _ hconn hopen]
    simp only [ServerJs.handleReaction]
    split
    · rfl
    · rw [if_neg (by rw [hallow]; exact Bool.false_ne_true)]
  · intro s cid c rc em room q hconn hopen hrc hem hallow hlook hq hqopen
    rw [show ServerJs.step s (.reaction cid rc em) =
        (s, ServerJs.handleReaction s c rc em) from
      ServerJs.onOpenConn_eq s cid c _ hconn hopen]
    simp only [ServerJs.handleReaction]
    rw [if_neg (by simp [hrc, hem]), if_pos hallow]
    exact ServerJs.mem_broadcastToRoom s rc _ hlook hq hqopen
  · intro s cid c rc room em hconn hopen hroom hlook hem
    rw [show PartTwo.step s (.reaction cid em) =
        (s, PartTwo.handleReaction s cid c em) from
      PartTwo.p2_onOpenConn_eq s cid c _ hconn hopen]
    simp only [PartTwo.handleReaction, hroom, hlook]
    rw [if_neg hem]
    exact ⟨trivial, rfl⟩

theorem C9_reaction_amended_witness :
    (ServerJs.step c9s (.reaction 0 "A" "💀")).1 = c9s
    ∧ (ServerJs.step c9s (.reaction 0 "A" "💀")).2 = []
    ∧ ((0 : Nat), ServerJs.SMsg.reactionMsg (some 1) "👍") ∈
        (ServerJs.step c9s (.reaction 0 "A" "👍")).2
    ∧ ((PartTwo.step c7p2s (.reaction 0 "🔥")).1 = c7p2s ∧
       (PartTwo.step c7p2s (.reaction 0 "🔥")).2 =
         PartTwo.broadcast c7p2s ⟨[0, 1], 0, false⟩
           (PartTwo.P2Msg.reactionMsg 0 (jsTake "🔥" 8))) := by
  refine ⟨?_, ?_, ?_, ?_⟩
  · exact C9_reaction_amended.1 c9s 0 "A" "💀"
  · exact C9_reaction_amended.2.1 c9s 0 ⟨true, some 1, some "A", "u"⟩ "A" "💀"
      (by decide) (by decide) (by decide)
  · exact C9_reaction_amended.2.2.1 c9s 0 ⟨true, some 1, some "A", "u"⟩ "A" "👍"
      ⟨[(1, ⟨0, "u", true⟩)], false, some 1⟩ (1, ⟨0, "u", true⟩) (by decide) (by decide)
      (by decide) (by decide) (by decide) (by decide) (by decide) (by decide)
  · exact C9_reaction_amended.2.2.2 c7p2s 0 ⟨true, some "123456", "u"⟩ "123456"
      ⟨[0, 1], 0, false⟩ "🔥" (by decide) (by decide) (by decide) (by decide) (by decide)

/-- Claim C10: in src/server.js handleJoin assigns clientId, currentRoom
and clientName before the lock and capacity checks, so a join rejected
as locked or full leaves the connection's closure variables pointing at
the room under a freshly generated clientId that was never inserted into
the room's membership Map; closing such a connection later still runs
the room branch of the close handler and broadcasts a peer-left event
carrying that never-inserted id to every current member with an open
socket, while the membership Map (indeed the whole registry) is
unchanged by the delete of the absent id. -/
theorem C10_phantom_peer_left :
    (∀ s cid c rc nm r, ServerJs.Inv s → lookupA cid s.conns = some c → c.isOpen = true →
      rc ≠ "" → lookupA rc s.rooms = some r →
      ((r.locked = true ∧ r.clients.length > 0) ∨
        r.clients.length ≥ ServerJs.MAX_ROOM_SIZE) →
      ∃ c', lookupA cid (ServerJs.step s (.join cid rc nm)).1.conns = some c' ∧
        c'.clientId = some s.fresh ∧ c'.currentRoom = some rc ∧
        (ServerJs.step s (.join cid rc nm)).1.rooms = s.rooms ∧
        lookupA s.fresh r.clients = none)
    ∧
    (∀ s cid c rc i r, lookupA cid s.conns = some c → c.isOpen = true →
      c.clientId = some i → c.currentRoom = some rc → lookupA rc s.rooms = some r →
      lookupA i r.clients = none → r.clients ≠ [] → r.hostId ≠ some i →
      (ServerJs.step s (.close cid)).1.rooms = s.rooms ∧
      (ServerJs.step s (.close cid)).2 =
        ServerJs.broadcastToRoom (ServerJs.step s (.close cid)).1 rc
          (ServerJs.SMsg.peerLeftMsg i c.clientName) none ∧
      ∀ q ∈ r.clients, ServerJs.connOpen (ServerJs.step s (.close cid)).1 q.2.ws = true →
        (q.2.ws, ServerJs.SMsg.peerLeftMsg i c.clientName) ∈
          (ServerJs.step s (.close cid)).2) := by
  constructor
  · intro s cid c rc nm r hinv hconn hopen hrc hlook hrej
    have habsent : lookupA s.fresh r.clients = none := by
      cases hl : lookupA s.fresh r.clients with
      | none => rfl
      | some v =>
        have := (hinv _ (mem_of_lookupA hlook)).2.2 _ (mem_of_lookupA hl)
        exact absurd this (lt_irrefl _)
    rw [show ServerJs.step s (.join cid rc nm) = ServerJs.handleJoin s cid c rc nm from
      ServerJs.onOpenConn_eq s cid c _ hconn hopen]
    simp only [ServerJs.handleJoin, if_neg hrc, hlook]
    by_cases hcond : r.locked = true ∧ r.clients.length > 0
    · simp only [ServerJs.joinResolved, if_pos hcond]
      refine ⟨_, lookupA_setA_self _ _ _, ?_, ?_, ?_, habsent⟩ <;> trivial
    · have hfull : r.clients.length ≥ ServerJs.MAX_ROOM_SIZE := by
        rcases hrej with hrej | hrej
        · exact absurd hrej hcond
        · exact hrej
      simp only [ServerJs.joinResolved, if_neg hcond]
      rw [if_pos hfull]
      refine ⟨_, lookupA_setA_self _ _ _, ?_, ?_, ?_, habsent⟩ <;> trivial
  · intro s cid c rc i r hconn hopen hci hcr hlook hmem hne hhost
    rw [show ServerJs.step s (.close cid) = ServerJs.handleClose s cid c from
      ServerJs.onOpenConn_eq s cid c _ hconn hopen]
    simp only [ServerJs.handleClose, hcr, hci, hlook]
    rw [eraseA_of_lookup_none hmem]
    have hlenne : ¬((r.clients.length == 0) = true) := by
      simp only [beq_iff_eq]
      intro h0
      exact hne (List.length_eq_zero.mp h0)
    rw [if_neg hlenne]
    have hwas : ¬((r.hostId == some i) = true) := by
      simp only [beq_iff_eq]
      exact hhost
    rw [if_neg hwas]
    have heta : (⟨r.clients, r.locked, r.hostId⟩ : ServerJs.SRoom) = r := rfl
    rw [heta, setA_self_of_lookup hlook]
    refine ⟨rfl, rfl, ?_⟩
    intro q hq hqopen
    refine ServerJs.mem_broadcastToRoom
      ⟨s.rooms, setA cid ⟨false, some i, some rc, c.clientName⟩ s.conns, s.fresh⟩ rc _
      ?_ hq ?_
    · exact hlook
    · exact hqopen

/-- A concrete run used for C10: a host joins and locks room A, a second
connection arrives, its join is rejected by the lock (under the phantom
clientId 3), and it then closes. -/
def c10evs : List ServerJs.SEvent :=
  [.connect, .join 0 "A" "h", .control 0 "A" "lock-room" true none, .connect,
   .join 2 "A" "z"]

/-- The state after c10evs. -/
def c10s : ServerJs.SState := ServerJs.run ServerJs.initState c10evs

/-- The state right before the rejected join of c10evs. -/
def c10pre : ServerJs.SState :=
  ServerJs.run ServerJs.initState
    [.connect, .join 0 "A" "h", .control 0 "A" "lock-room" true none, .connect]

theorem C10_phantom_peer_left_witness :
    (∃ c', lookupA 2 (ServerJs.step c10pre (.join 2 "A" "z")).1.conns = some c' ∧
      c'.clientId = some c10pre.fresh ∧ c'.currentRoom = some "A" ∧
      (ServerJs.step c10pre (.join 2 "A" "z")).1.rooms = c10pre.rooms ∧
      lookupA c10pre.fresh (⟨[(1, ⟨0, "h", true⟩)], true, some 1⟩ : ServerJs.SRoom).clients =
        none)
    ∧ ((ServerJs.step c10s (.close 2)).1.rooms = c10s.rooms ∧
      (ServerJs.step c10s (.close 2)).2 =
        ServerJs.broadcastToRoom (ServerJs.step c10s (.close 2)).1 "A"
          (ServerJs.SMsg.peerLeftMsg 3 "z") none ∧
      ∀ q ∈ (⟨[(1, ⟨0, "h", true⟩)], true, some 1⟩ : ServerJs.SRoom).clients,
        ServerJs.connOpen (ServerJs.step c10s (.close 2)).1 q.2.ws = true →
        (q.2.ws, ServerJs.SMsg.peerLeftMsg 3 "z") ∈ (ServerJs.step c10s (.close 2)).2) := by
  constructor
  · exact C10_phantom_peer_left.1 c10pre 2 ⟨true, none, none, "Misafir"⟩ "A" "z"
      ⟨[(1, ⟨0, "h", true⟩)], true, some 1⟩ (by decide) (by decide) (by decide) (by decide)
      (by decide) (Or.inl (by decide))
  · exact C10_phantom_peer_left.2 c10s 2 ⟨true, some 3, some "A", "z"⟩ "A" 3
      ⟨[(1, ⟨0, "h", true⟩)], true, some 1⟩ (by decide) (by decide) (by decide) (by decide)
      (by decide) (by decide) (by decide) (by decide)
